import Mathlib

/-!
Shallow embedding of the per-connection protocol engine of seasocks
(`src/main/c/Connection.cpp`).

Bytes are modelled as `Nat` (values < 256 on the wire); C strings and
`std::string` values as Lean `String` / `List Char`; the non-blocking
socket as an environment stream of `::send` outcomes stored in the
connection state; the event loop, logger, server registry, md5/sha1
libraries and embedded-content registry as external collaborators
(abstract parameters or spec-modelled definitions, each marked as such).
-/

namespace Seasocks

/-- `MaxBufferSize` from Connection.cpp (16 MiB). -/
def MaxBufferSize : Nat := 16 * 1024 * 1024

/-- `ReadWriteBufferSize` from Connection.cpp (16 KiB). -/
def ReadWriteBufferSize : Nat := 16 * 1024

/-- `MaxWebsocketMessageSize` from Connection.cpp. -/
def MaxWebsocketMessageSize : Nat := 16384

/-- `MaxHeadersSize` from Connection.cpp (64 KiB). -/
def MaxHeadersSize : Nat := 64 * 1024

/-- Protocol states of the connection FSM (`enum State` of Connection). -/
inductive ProtoState
  | READING_HEADERS
  | READING_WEBSOCKET_KEY3
  | HANDLING_HIXIE_WEBSOCKET
  | HANDLING_HYBI_WEBSOCKET
  | BUFFERING_POST_DATA
deriving DecidableEq, Repr

/-- Callbacks delivered to the bound `WebSocketHandler`. -/
inductive WsEvent
  | onConnect
  | onData (message : List Nat)
  | onDataBinary (message : List Nat)
deriving DecidableEq, Repr

/-- Outcome of one call to the external, non-blocking `::send`:
the kernel accepted `n` bytes, or reported EAGAIN/EWOULDBLOCK, or failed. -/
inductive SockSend
  | accepted (n : Nat)
  | eagain
  | err
deriving DecidableEq, Repr

/-- The slice of `Connection` state the claims are about.  `wire` is the
transcript of bytes actually accepted by `::send`; `sends` is the
environment: the outcomes of the successive `::send` calls; `subOk` /
`unsubOk` are the results of the server's (un)subscribe-to-write-events
calls; `events` records handler callbacks; `errorLogs` records
`LS_ERROR` diagnostics. -/
structure ConnState where
  fdOpen : Bool
  shutdown : Bool
  shutdownByUser : Bool
  hadSendError : Bool
  closeOnEmpty : Bool
  registeredForWriteEvents : Bool
  outBuf : List Nat
  inBuf : List Nat
  bytesSent : Nat
  wire : List Nat
  errorLogs : List String
  protoState : ProtoState
  hasHandler : Bool
  events : List WsEvent
  webSocketKeys0 : Nat
  webSocketKeys1 : Nat
  hixieExtraHeaders : String
  serverVersion : String
  nowStr : String
  sends : List SockSend
  subOk : Bool
  unsubOk : Bool
deriving DecidableEq, Repr

/-- `Connection::Connection`: initial state after accept (flags false,
buffers empty, state `READING_HEADERS`, both Hixie keys zero). The
version/date strings and the socket environment are parameters. -/
def initConn (version now : String) (sends : List SockSend) (subOk unsubOk : Bool) : ConnState :=
  { fdOpen := true, shutdown := false, shutdownByUser := false, hadSendError := false
    closeOnEmpty := false, registeredForWriteEvents := false
    outBuf := [], inBuf := [], bytesSent := 0, wire := [], errorLogs := []
    protoState := .READING_HEADERS, hasHandler := false, events := []
    webSocketKeys0 := 0, webSocketKeys1 := 0, hixieExtraHeaders := ""
    serverVersion := version, nowStr := now, sends := sends, subOk := subOk, unsubOk := unsubOk }

/-- `Connection::closeInternal`: shuts the socket down (external syscall)
and records `_shutdown = true`; the FD stays open until finalise. -/
def closeInternal (c : ConnState) : ConnState :=
  { c with shutdown := true }

/-- `Connection::close`: user-side close; sets `_shutdownByUser` then
`closeInternal`. -/
def userClose (c : ConnState) : ConnState :=
  closeInternal { c with shutdownByUser := true }

/-- `Connection::closeWhenEmpty`. -/
def closeWhenEmpty (c : ConnState) : ConnState :=
  if c.outBuf.isEmpty then closeInternal c else { c with closeOnEmpty := true }

/-- `Connection::closed`: `_fd == -1 || _shutdown`. -/
def closedC (c : ConnState) : Bool :=
  !c.fdOpen || c.shutdown

/-- Pop the next `::send` outcome from the environment stream (an empty
stream behaves as EAGAIN). -/
def popSend (c : ConnState) : SockSend × ConnState :=
  match c.sends with
  | [] => (.eagain, c)
  | s :: rest => (s, { c with sends := rest })

/-- `Connection::safeSend`.  Returns the `::send` result (−1 on
failure/ignored) and the new state.  On success the accepted prefix is
appended to the wire transcript and counted in `_bytesSent`; a non-EAGAIN
error closes the connection (note: `_hadSendError` is never assigned in
Connection.cpp, only read). -/
def safeSend (c : ConnState) (data : List Nat) : Int × ConnState :=
  if !c.fdOpen || c.hadSendError || c.shutdown then (-1, c)
  else
    match popSend c with
    | (.err, c') => (-1, closeInternal c')
    | (.eagain, c') => (0, c')
    | (.accepted n, c') =>
      let m := min n data.length
      (Int.ofNat m, { c' with bytesSent := c'.bytesSent + m, wire := c'.wire ++ data.take m })

/-- Tail of `Connection::flush` (lines 355-359): close-when-empty firing. -/
def flushTail (c : ConnState) : Bool × ConnState :=
  if c.outBuf.isEmpty && !(closedC c) && c.closeOnEmpty then (true, closeInternal c)
  else (true, c)

/-- Lines 344-354 of `Connection::flush`: maintain the write-event
subscription after the sent prefix was removed, then the close-when-empty
tail. -/
def flushSub (c : ConnState) : Bool × ConnState :=
  if c.outBuf.length > 0 && !c.registeredForWriteEvents then
    if !c.subOk then (false, c)
    else flushTail { c with registeredForWriteEvents := true }
  else if c.outBuf.isEmpty && c.registeredForWriteEvents then
    if !c.unsubOk then (false, c)
    else flushTail { c with registeredForWriteEvents := false }
  else flushTail c

/-- `Connection::flush`: send as much of the output buffer as the socket
accepts in one call, drop the sent prefix, maintain the write-event
subscription, and fire close-when-empty. -/
def flush (c : ConnState) : Bool × ConnState :=
  if c.outBuf.isEmpty then (true, c)
  else
    match safeSend c c.outBuf with
    | (numSent, c') =>
      if numSent = -1 then (false, c')
      else flushSub { c' with outBuf := c'.outBuf.drop numSent.toNat }

/-- Lines 279-293 of `Connection::write`: append the unsent tail to the
output buffer (closing if the buffer would reach the cap), then
optionally flush. -/
def writeCore (c : ConnState) (data : List Nat) (flushIt : Bool) (bytesSent : Nat) : Bool × ConnState :=
  let bytesToBuffer := data.length - bytesSent
  let newBufferSize := c.outBuf.length + bytesToBuffer
  if MaxBufferSize ≤ newBufferSize then (false, closeInternal c)
  else
    let c' := { c with outBuf := c.outBuf ++ data.drop bytesSent }
    if flushIt then flush c' else (true, c')

/-- `Connection::write(data, size, flushIt)`. -/
def write (c : ConnState) (data : List Nat) (flushIt : Bool) : Bool × ConnState :=
  if closedC c || c.closeOnEmpty then (false, c)
  else if data.length = 0 then
    (if flushIt then flush c else (true, c))
  else if c.outBuf.isEmpty && flushIt then
    match safeSend c data with
    | (res, c') =>
      if res = (data.length : Int) then (true, c')
      else if res = -1 then (false, c')
      else writeCore c' data flushIt res.toNat
  else writeCore c data flushIt 0

/-- Bytes of a string, one `Nat` per character. -/
def strBytes (s : String) : List Nat := s.data.map Char.toNat

/-- `Connection::bufferLine(const std::string&)`: buffer `line + "\r\n"`
without flushing (the `const char*` overload buffers the same bytes with
two `write` calls). -/
def bufferLine (c : ConnState) (line : String) : ConnState :=
  (write c (strBytes (line ++ "\r\n")) false).2

/-- Big-endian bytes of a 16-bit value (`htons`). -/
def be16 (n : Nat) : List Nat := [n / 256 % 256, n % 256]

/-- Big-endian bytes of a 64-bit value (`__bswap_64` of a little-endian
`uint64_t`, i.e. network order). -/
def be64 (n : Nat) : List Nat :=
  [n / 2 ^ 56 % 256, n / 2 ^ 48 % 256, n / 2 ^ 40 % 256, n / 2 ^ 32 % 256,
   n / 2 ^ 24 % 256, n / 2 ^ 16 % 256, n / 2 ^ 8 % 256, n % 256]

/-- Big-endian bytes of a 32-bit value (`htonl`). -/
def be32 (n : Nat) : List Nat :=
  [n / 2 ^ 24 % 256, n / 2 ^ 16 % 256, n / 2 ^ 8 % 256, n % 256]

/-- Hybi opcodes used by the engine (`HybiPacketDecoder::OPCODE_*`). -/
def OPCODE_TEXT : Nat := 1
def OPCODE_BINARY : Nat := 2
def OPCODE_PONG : Nat := 0xA

/-- The `if (!write(...)) return;` early-return idiom: continue with the
new state only when the write succeeded. -/
def andThen (r : Bool × ConnState) (k : ConnState → ConnState) : ConnState :=
  match r with
  | (false, c) => c
  | (true, c) => k c

/-- `Connection::sendHybi`: single unmasked frame, `0x80 | opcode`, the
7/16/64-bit length encoding, then the payload (flushed). -/
def sendHybi (c : ConnState) (opcode : Nat) (msg : List Nat) : ConnState :=
  andThen (write c [0x80 ||| opcode] false) fun c =>
    if msg.length < 126 then
      andThen (write c [msg.length] false) fun c => (write c msg true).2
    else if msg.length < 65536 then
      andThen (write c [126] false) fun c =>
        andThen (write c (be16 msg.length) false) fun c => (write c msg true).2
    else
      andThen (write c [127] false) fun c =>
        andThen (write c (be64 msg.length) false) fun c => (write c msg true).2

/-- `Connection::send(const char*)`: text message.  Dropped (with an
`LS_ERROR` diagnostic iff the shutdown was user-initiated) after
shutdown; Hixie frames as 0x00/payload/0xFF, otherwise a Hybi TEXT
frame.  `msg` lists the bytes `strlen` would see (NUL-free). -/
def sendText (c : ConnState) (msg : List Nat) : ConnState :=
  if c.shutdown then
    if c.shutdownByUser then
      { c with errorLogs := c.errorLogs ++ ["Server wrote to connection after closing it"] }
    else c
  else if c.protoState = .HANDLING_HIXIE_WEBSOCKET then
    andThen (write c [0] false) fun c =>
      andThen (write c msg false) fun c => (write c [0xff] true).2
  else sendHybi c OPCODE_TEXT msg

/-- `Connection::send(const uint8_t*, size_t)`: binary message.  Dropped
(with an `LS_ERROR` diagnostic iff user-initiated) after shutdown;
rejected with a logged error on Hixie; otherwise a Hybi BINARY frame. -/
def sendBinary (c : ConnState) (data : List Nat) : ConnState :=
  if c.shutdown then
    if c.shutdownByUser then
      { c with errorLogs := c.errorLogs ++ ["Client wrote to connection after closing it"] }
    else c
  else if c.protoState = .HANDLING_HIXIE_WEBSOCKET then
    { c with errorLogs := c.errorLogs ++ ["Hixie does not support binary"] }
  else sendHybi c OPCODE_BINARY data

/-- The externally drivable write-side operations of a `Connection`. -/
inductive ConnOp
  | write (data : List Nat) (flushIt : Bool)
  | flush
  | sendText (msg : List Nat)
  | sendBinary (data : List Nat)
  | close
  | closeWhenEmpty
deriving DecidableEq, Repr

/-- One operation applied to the connection. -/
def step (c : ConnState) : ConnOp → ConnState
  | .write data flushIt => (write c data flushIt).2
  | .flush => (flush c).2
  | .sendText msg => sendText c msg
  | .sendBinary data => sendBinary c data
  | .close => userClose c
  | .closeWhenEmpty => closeWhenEmpty c

/-- A sequence of operations applied in order. -/
def runOps (c : ConnState) : List ConnOp → ConnState
  | [] => c
  | op :: ops => runOps (step c op) ops

theorem safeSend_outBuf (c : ConnState) (data : List Nat) :
    (safeSend c data).2.outBuf = c.outBuf := by
  unfold safeSend popSend
  split
  · rfl
  · cases c.sends with
    | nil => rfl
    | cons s rest => cases s <;> rfl

theorem flushTail_outBuf (c : ConnState) : (flushTail c).2.outBuf = c.outBuf := by
  unfold flushTail
  split <;> rfl

theorem flushSub_outBuf (c : ConnState) : (flushSub c).2.outBuf = c.outBuf := by
  unfold flushSub
  split
  · split
    · rfl
    · rw [flushTail_outBuf]
  · split
    · split
      · rfl
      · rw [flushTail_outBuf]
    · rw [flushTail_outBuf]

theorem flush_outBuf_le (c : ConnState) :
    (flush c).2.outBuf.length ≤ c.outBuf.length := by
  unfold flush
  split
  · exact le_refl _
  · rcases hss : safeSend c c.outBuf with ⟨numSent, c'⟩
    have hbuf : c'.outBuf = c.outBuf := by
      have h := safeSend_outBuf c c.outBuf
      rw [hss] at h
      exact h
    dsimp only
    split
    · exact le_of_eq (congrArg List.length hbuf)
    · rw [flushSub_outBuf]
      simp only [List.length_drop, hbuf]
      omega

theorem writeCore_outBuf_lt (c : ConnState) (data : List Nat) (b : Bool) (n : Nat)
    (h : c.outBuf.length < MaxBufferSize) :
    (writeCore c data b n).2.outBuf.length < MaxBufferSize := by
  unfold writeCore
  dsimp only
  by_cases hcap : MaxBufferSize ≤ c.outBuf.length + (data.length - n)
  · rw [if_pos hcap]
    exact h
  · rw [if_neg hcap]
    cases b
    · simp only [Bool.false_eq_true, if_false, List.length_append, List.length_drop]
      omega
    · simp only [if_true]
      refine lt_of_le_of_lt (flush_outBuf_le _) ?_
      simp only [List.length_append, List.length_drop]
      omega

theorem write_outBuf_lt (c : ConnState) (data : List Nat) (b : Bool)
    (h : c.outBuf.length < MaxBufferSize) :
    (write c data b).2.outBuf.length < MaxBufferSize := by
  unfold write
  split
  · exact h
  · split
    · split
      · exact lt_of_le_of_lt (flush_outBuf_le _) h
      · exact h
    · split
      · rcases hss : safeSend c data with ⟨res, c'⟩
        have hbuf : c'.outBuf = c.outBuf := by
          have hx := safeSend_outBuf c data
          rw [hss] at hx
          exact hx
        dsimp only
        split
        · simpa [hbuf] using h
        · split
          · simpa [hbuf] using h
          · exact writeCore_outBuf_lt _ _ _ _ (by simpa [hbuf] using h)
      · exact writeCore_outBuf_lt _ _ _ _ h

theorem andThen_lt (r : Bool × ConnState) (k : ConnState → ConnState)
    (h2 : r.2.outBuf.length < MaxBufferSize)
    (hk : ∀ c', c'.outBuf.length < MaxBufferSize → (k c').outBuf.length < MaxBufferSize) :
    (andThen r k).outBuf.length < MaxBufferSize := by
  rcases r with ⟨ok, c⟩
  cases ok
  · exact h2
  · exact hk c h2

theorem sendHybi_outBuf_lt (c : ConnState) (opcode : Nat) (msg : List Nat)
    (h : c.outBuf.length < MaxBufferSize) :
    (sendHybi c opcode msg).outBuf.length < MaxBufferSize := by
  unfold sendHybi
  refine andThen_lt _ _ (write_outBuf_lt _ _ _ h) ?_
  intro c1 h1
  split
  · exact andThen_lt _ _ (write_outBuf_lt _ _ _ h1)
      fun c2 h2 => write_outBuf_lt _ _ _ h2
  · split
    · refine andThen_lt _ _ (write_outBuf_lt _ _ _ h1) ?_
      intro c2 h2
      exact andThen_lt _ _ (write_outBuf_lt _ _ _ h2)
        fun c3 h3 => write_outBuf_lt _ _ _ h3
    · refine andThen_lt _ _ (write_outBuf_lt _ _ _ h1) ?_
      intro c2 h2
      exact andThen_lt _ _ (write_outBuf_lt _ _ _ h2)
        fun c3 h3 => write_outBuf_lt _ _ _ h3

theorem sendText_outBuf_lt (c : ConnState) (msg : List Nat)
    (h : c.outBuf.length < MaxBufferSize) :
    (sendText c msg).outBuf.length < MaxBufferSize := by
  unfold sendText
  split
  · split
    · exact h
    · exact h
  · split
    · refine andThen_lt _ _ (write_outBuf_lt _ _ _ h) ?_
      intro c1 h1
      exact andThen_lt _ _ (write_outBuf_lt _ _ _ h1)
        fun c2 h2 => write_outBuf_lt _ _ _ h2
    · exact sendHybi_outBuf_lt c OPCODE_TEXT msg h

theorem sendBinary_outBuf_lt (c : ConnState) (data : List Nat)
    (h : c.outBuf.length < MaxBufferSize) :
    (sendBinary c data).outBuf.length < MaxBufferSize := by
  unfold sendBinary
  split
  · split
    · exact h
    · exact h
  · split
    · exact h
    · exact sendHybi_outBuf_lt c OPCODE_BINARY data h

theorem step_outBuf_lt (c : ConnState) (op : ConnOp)
    (h : c.outBuf.length < MaxBufferSize) :
    (step c op).outBuf.length < MaxBufferSize := by
  cases op with
  | write data flushIt =>
    simp only [step]
    exact write_outBuf_lt c data flushIt h
  | flush =>
    simp only [step]
    exact lt_of_le_of_lt (flush_outBuf_le c) h
  | sendText msg =>
    simp only [step]
    exact sendText_outBuf_lt c msg h
  | sendBinary data =>
    simp only [step]
    exact sendBinary_outBuf_lt c data h
  | close =>
    simp only [step, userClose, closeInternal]
    exact h
  | closeWhenEmpty =>
    simp only [step, closeWhenEmpty, closeInternal]
    split
    · exact h
    · exact h

theorem runOps_outBuf_lt (c : ConnState) (ops : List ConnOp)
    (h : c.outBuf.length < MaxBufferSize) :
    (runOps c ops).outBuf.length < MaxBufferSize := by
  induction ops generalizing c with
  | nil => exact h
  | cons op ops ih => exact ih (step c op) (step_outBuf_lt c op h)

theorem write_cap (c : ConnState) (data : List Nat) (flushIt : Bool)
    (h1 : closedC c = false) (h2 : c.closeOnEmpty = false)
    (h3 : (c.outBuf.isEmpty && flushIt) = false) (hlen : data.length ≠ 0)
    (h5 : MaxBufferSize ≤ c.outBuf.length + data.length) :
    write c data flushIt = (false, closeInternal c) := by
  unfold write
  rw [h1, h2]
  simp only [Bool.or_self, Bool.false_eq_true, if_false]
  rw [if_neg hlen, h3]
  simp only [Bool.false_eq_true, if_false]
  unfold writeCore
  dsimp only
  rw [Nat.sub_zero, if_pos h5]

/-- **C1**: (a) starting from a fresh connection, no sequence of
operations (in particular of `Connection::write` calls) ever grows the
output buffer beyond the 16 MiB cap, whatever the socket accepts; and
(b) whenever appending the unsent tail (here the whole `data`, as no
fast-path send happens) would take the buffer to the cap or past it, the
write closes the connection immediately and returns failure, and the
state is otherwise untouched — in particular none of the data is
buffered and nothing is put on the wire. -/
theorem c1_output_buffer_capped :
    (∀ (version now : String) (sends : List SockSend) (subOk unsubOk : Bool) (ops : List ConnOp),
       (runOps (initConn version now sends subOk unsubOk) ops).outBuf.length ≤ MaxBufferSize)
    ∧ (∀ (c : ConnState) (data : List Nat) (flushIt : Bool),
       closedC c = false → c.closeOnEmpty = false →
       (c.outBuf.isEmpty && flushIt) = false → data.length ≠ 0 →
       MaxBufferSize ≤ c.outBuf.length + data.length →
       write c data flushIt = (false, closeInternal c)) := by
  constructor
  · intro version now sends subOk unsubOk ops
    refine le_of_lt (runOps_outBuf_lt _ ops ?_)
    simp [initConn, MaxBufferSize]
  · exact write_cap

/-- Witness for C1: a concrete fresh connection and a 16 MiB write with
`flushIt = false`; the write fails and closes. -/
theorem c1_output_buffer_capped_witness :
    write (initConn "seasocks" "now" [] true true) (List.replicate MaxBufferSize 1) false
      = (false, closeInternal (initConn "seasocks" "now" [] true true)) :=
  c1_output_buffer_capped.2 (initConn "seasocks" "now" [] true true)
    (List.replicate MaxBufferSize 1) false rfl rfl rfl
    (by rw [List.length_replicate]; decide)
    (by rw [List.length_replicate]; exact Nat.le_add_left _ _)

theorem safeSend_shutdown (c : ConnState) (data : List Nat) (h : c.shutdown = true) :
    safeSend c data = (-1, c) := by
  unfold safeSend
  rw [h]
  simp

theorem write_shutdown (c : ConnState) (data : List Nat) (b : Bool) (h : c.shutdown = true) :
    write c data b = (false, c) := by
  have hc : closedC c = true := by
    unfold closedC
    rw [h]
    simp
  unfold write
  rw [hc]
  simp

theorem flush_shutdown (c : ConnState) (h : c.shutdown = true) :
    (flush c).2 = c := by
  unfold flush
  split
  · rfl
  · rw [safeSend_shutdown c _ h]
    simp

theorem sendText_shutdown (c : ConnState) (msg : List Nat) (h : c.shutdown = true) :
    sendText c msg = if c.shutdownByUser then
      { c with errorLogs := c.errorLogs ++ ["Server wrote to connection after closing it"] }
    else c := by
  unfold sendText
  rw [h]
  simp

theorem sendBinary_shutdown (c : ConnState) (data : List Nat) (h : c.shutdown = true) :
    sendBinary c data = if c.shutdownByUser then
      { c with errorLogs := c.errorLogs ++ ["Client wrote to connection after closing it"] }
    else c := by
  unfold sendBinary
  rw [h]
  simp

theorem step_shutdown (c : ConnState) (op : ConnOp) (h : c.shutdown = true) :
    (step c op).wire = c.wire ∧ (step c op).bytesSent = c.bytesSent ∧
    (step c op).shutdown = true ∧ (step c op).outBuf = c.outBuf := by
  cases op with
  | write data b =>
    simp only [step]
    rw [write_shutdown c data b h]
    exact ⟨rfl, rfl, h, rfl⟩
  | flush =>
    simp only [step]
    rw [flush_shutdown c h]
    exact ⟨rfl, rfl, h, rfl⟩
  | sendText msg =>
    simp only [step]
    rw [sendText_shutdown c msg h]
    split
    · exact ⟨rfl, rfl, h, rfl⟩
    · exact ⟨rfl, rfl, h, rfl⟩
  | sendBinary data =>
    simp only [step]
    rw [sendBinary_shutdown c data h]
    split
    · exact ⟨rfl, rfl, h, rfl⟩
    · exact ⟨rfl, rfl, h, rfl⟩
  | close =>
    exact ⟨rfl, rfl, rfl, rfl⟩
  | closeWhenEmpty =>
    simp only [step, closeWhenEmpty]
    split
    · exact ⟨rfl, rfl, rfl, rfl⟩
    · exact ⟨rfl, rfl, h, rfl⟩

theorem runOps_shutdown (c : ConnState) (ops : List ConnOp) (h : c.shutdown = true) :
    (runOps c ops).wire = c.wire ∧ (runOps c ops).bytesSent = c.bytesSent ∧
    (runOps c ops).shutdown = true := by
  induction ops generalizing c with
  | nil => exact ⟨rfl, rfl, h⟩
  | cons op ops ih =>
    obtain ⟨hw, hb, hs, _⟩ := step_shutdown c op h
    obtain ⟨hw2, hb2, hs2⟩ := ih (step c op) hs
    exact ⟨hw2.trans hw, hb2.trans hb, hs2⟩

/-- **C3**: once `_shutdown` is true it stays true, and no sequence of
write-side operations ever puts another byte on the wire or bumps
`_bytesSent`; every `safeSend` returns −1 leaving the state untouched,
and the two `send` entry points drop the message, changing nothing but
appending the `LS_ERROR` diagnostic exactly when the shutdown was
user-initiated (`_shutdownByUser`, set by `close()`). -/
theorem c3_no_bytes_after_shutdown (c : ConnState) (h : c.shutdown = true) :
    (∀ ops : List ConnOp,
       (runOps c ops).wire = c.wire ∧ (runOps c ops).bytesSent = c.bytesSent ∧
       (runOps c ops).shutdown = true)
    ∧ (∀ data : List Nat, safeSend c data = (-1, c))
    ∧ (∀ msg : List Nat, sendText c msg = if c.shutdownByUser then
        { c with errorLogs := c.errorLogs ++ ["Server wrote to connection after closing it"] }
      else c)
    ∧ (∀ data : List Nat, sendBinary c data = if c.shutdownByUser then
        { c with errorLogs := c.errorLogs ++ ["Client wrote to connection after closing it"] }
      else c) :=
  ⟨fun ops => runOps_shutdown c ops h,
   fun data => safeSend_shutdown c data h,
   fun msg => sendText_shutdown c msg h,
   fun data => sendBinary_shutdown c data h⟩

/-- A concrete connection closed by the user (`close()` called), with a
socket that would still accept bytes. -/
def shutConnEx : ConnState :=
  userClose (initConn "seasocks" "now" [.accepted 5, .accepted 5] true true)

/-- Witness for C3 at a concrete user-closed connection and a concrete
operation sequence. -/
theorem c3_no_bytes_after_shutdown_witness :
    ((runOps shutConnEx [.sendText [104, 105], .write [1, 2, 3] true, .flush]).wire
       = shutConnEx.wire)
    ∧ sendText shutConnEx [104, 105]
        = { shutConnEx with errorLogs :=
              shutConnEx.errorLogs ++ ["Server wrote to connection after closing it"] } := by
  obtain ⟨hruns, hsafe, htext, hbin⟩ := c3_no_bytes_after_shutdown shutConnEx rfl
  refine ⟨(hruns _).1, ?_⟩
  rw [htext [104, 105]]
  rfl

/-- The observable value of a C string at a buffer position: the bytes
up to (not including) the first NUL.  Both WebSocket text paths hand the
handler a `const char*`, so this is what `onData` sees. -/
def cString (bytes : List Nat) : List Nat := bytes.takeWhile (fun b => b != 0)

/-- The scan of lines 531-537: find the first 0xFF; `some (msg, rest)`
splits off the bytes before it and the bytes after it. -/
def splitAtFF : List Nat → Option (List Nat × List Nat)
  | [] => none
  | b :: rest =>
    if b = 0xff then some ([], rest)
    else
      match splitAtFF rest with
      | none => none
      | some (msg, rest') => some (b :: msg, rest')

/-- Fuel-indexed form of the `while (messageStart < _inBuf.size())` loop
of `Connection::handleHixieWebSocket` (lines 524-545): returns the raw
payloads of the complete messages found, the number of bytes consumed
(`messageStart`), and whether the framing-error branch (first byte not
0x00) was hit.  Each iteration consumes at least two bytes, so fuel
equal to the buffer length always suffices. -/
def hixieExtractF : Nat → List Nat → List (List Nat) × Nat × Bool
  | 0, _ => ([], 0, false)
  | _ + 1, [] => ([], 0, false)
  | fuel + 1, b :: rest =>
    if b ≠ 0 then ([], 0, true)
    else
      match splitAtFF rest with
      | none => ([], 0, false)
      | some (msg, rest') =>
        match hixieExtractF fuel rest' with
        | (msgs, n, err) => (msg :: msgs, (msg.length + 2) + n, err)

/-- The Hixie extraction loop run on a buffer. -/
def hixieExtract (buf : List Nat) : List (List Nat) × Nat × Bool :=
  hixieExtractF buf.length buf

/-- `Connection::handleWebSocketTextMessage`: deliver to the bound
handler, if any. -/
def handleWebSocketTextMessage (c : ConnState) (msg : List Nat) : ConnState :=
  if c.hasHandler then { c with events := c.events ++ [.onData msg] } else c

/-- `Connection::handleWebSocketBinaryMessage`. -/
def handleWebSocketBinaryMessage (c : ConnState) (msg : List Nat) : ConnState :=
  if c.hasHandler then { c with events := c.events ++ [.onDataBinary msg] } else c

/-- `Connection::handleHixieWebSocket`.  Complete messages are delivered
as C strings (the in-place overwrite of the 0xFF terminator with 0 makes
the handler observe the payload up to its first NUL); then the consumed
prefix is erased, and if more than `MaxWebsocketMessageSize` unconsumed
bytes remain the connection is closed.  On the framing error the
connection closes with the buffer unerased. -/
def handleHixieWebSocket (c : ConnState) : ConnState :=
  if c.inBuf.isEmpty then c
  else
    match hixieExtract c.inBuf with
    | (msgs, consumed, err) =>
      let c' := msgs.foldl (fun acc m => handleWebSocketTextMessage acc (cString m)) c
      if err then closeInternal c'
      else
        let c2 := { c' with inBuf := c'.inBuf.drop consumed }
        if MaxWebsocketMessageSize < c2.inBuf.length then closeInternal c2 else c2

/-- One decoded item reported by the Hybi packet decoder during a pass. -/
inductive HybiEvent
  | text (payload : List Nat)
  | binary (payload : List Nat)
  | ping (payload : List Nat)
deriving DecidableEq, Repr

/-- The terminal status that ends one decode pass (`unknown` stands for
the `default` branch of the switch). -/
inductive HybiTerminal
  | noMessage
  | closeFrame
  | error
  | unknown
deriving DecidableEq, Repr

/-- Modelled from the spec: `HybiPacketDecoder`
(internal/HybiPacketDecoder.h) is not under src/.  Per §4.3 the decoder,
run over the input buffer, reports a sequence of decoded TEXT/BINARY
messages and PINGs followed by a terminal status (`NoMessage` = need
more bytes, `Close`, `Error`), and exposes the number of bytes it
consumed so the FSM can shift the input buffer.  A `DecodePass` records
that outcome for one invocation of the handler. -/
structure DecodePass where
  events : List HybiEvent
  consumed : Nat
  terminal : HybiTerminal
deriving DecidableEq, Repr

/-- Lines 571-574 of `Connection::handleHybiWebSocket`: a decoded TEXT
payload gets a 0 byte appended (`push_back(0)`) and is passed to the
handler as a C string. -/
def hybiDeliverText (c : ConnState) (payload : List Nat) : ConnState :=
  handleWebSocketTextMessage c (cString (payload ++ [0]))

/-- The per-message dispatch of the `handleHybiWebSocket` loop body. -/
def handleHybiEvents (c : ConnState) : List HybiEvent → ConnState
  | [] => c
  | .text p :: es => handleHybiEvents (hybiDeliverText c p) es
  | .binary p :: es => handleHybiEvents (handleWebSocketBinaryMessage c p) es
  | .ping p :: es => handleHybiEvents (sendHybi c OPCODE_PONG p) es

/-- `Connection::handleHybiWebSocket` (lines 555-597), parameterised by
the decode pass the external decoder produces on this buffer: process
the decoded messages in order; on `Error`, `Close` or the `default`
branch close (without erasing); on `NoMessage` erase the consumed prefix
and close if more than `MaxWebsocketMessageSize` bytes remain. -/
def handleHybiWebSocket (c : ConnState) (pass : DecodePass) : ConnState :=
  if c.inBuf.isEmpty then c
  else
    let c' := handleHybiEvents c pass.events
    match pass.terminal with
    | .noMessage =>
      let c2 := { c' with inBuf := c'.inBuf.drop pass.consumed }
      if MaxWebsocketMessageSize < c2.inBuf.length then closeInternal c2 else c2
    | _ => closeInternal c'

theorem splitAtFF_no_ff (l : List Nat) (h : ∀ x ∈ l, x ≠ 0xff) :
    splitAtFF (l ++ [0xff]) = some (l, []) := by
  induction l with
  | nil => rfl
  | cons b rest ih =>
    have hb : b ≠ 0xff := h b (by simp)
    have hrest : ∀ x ∈ rest, x ≠ 0xff := fun x hx => h x (by simp [hx])
    simp only [List.cons_append, splitAtFF, if_neg hb, List.append_eq, ih hrest]

theorem cString_all (l : List Nat) (h : ∀ x ∈ l, x ≠ 0) : cString l = l := by
  induction l with
  | nil => rfl
  | cons x rest ih =>
    have hx : (x != 0) = true := by
      simpa using h x (by simp)
    have hrest : ∀ y ∈ rest, y ≠ 0 := fun y hy => h y (by simp [hy])
    simp only [cString, List.takeWhile_cons, hx, if_true]
    have := ih hrest
    unfold cString at this
    rw [this]

theorem cString_prefix (a b : List Nat) (h : ∀ x ∈ a, x ≠ 0) :
    cString (a ++ 0 :: b) = a := by
  induction a with
  | nil => rfl
  | cons x rest ih =>
    have hx : (x != 0) = true := by
      simpa using h x (by simp)
    have hrest : ∀ y ∈ rest, y ≠ 0 := fun y hy => h y (by simp [hy])
    simp only [List.cons_append, cString, List.takeWhile_cons, hx, if_true]
    have := ih hrest
    unfold cString at this
    rw [this]

theorem hixieExtract_single (p : List Nat) (h : ∀ x ∈ p, x ≠ 0xff) :
    hixieExtract (0 :: (p ++ [0xff])) = ([p], p.length + 2, false) := by
  have hlen : (0 :: (p ++ [0xff])).length = (p.length + 1) + 1 := by simp
  unfold hixieExtract
  rw [hlen]
  simp only [hixieExtractF, splitAtFF_no_ff p h, ne_eq, not_true_eq_false, if_false]

theorem textFold_core (msgs : List (List Nat)) (c : ConnState) :
    ((msgs.foldl (fun acc m => handleWebSocketTextMessage acc (cString m)) c).shutdown
        = c.shutdown)
    ∧ ((msgs.foldl (fun acc m => handleWebSocketTextMessage acc (cString m)) c).inBuf
        = c.inBuf) := by
  induction msgs generalizing c with
  | nil => exact ⟨rfl, rfl⟩
  | cons m ms ih =>
    have hstep : (handleWebSocketTextMessage c (cString m)).shutdown = c.shutdown
        ∧ (handleWebSocketTextMessage c (cString m)).inBuf = c.inBuf := by
      unfold handleWebSocketTextMessage
      split
      · exact ⟨rfl, rfl⟩
      · exact ⟨rfl, rfl⟩
    obtain ⟨h1, h2⟩ := ih (handleWebSocketTextMessage c (cString m))
    simp only [List.foldl_cons]
    exact ⟨h1.trans hstep.1, h2.trans hstep.2⟩

theorem handleHybiEvents_core (es : List HybiEvent) (c : ConnState)
    (hn : ∀ p, HybiEvent.ping p ∉ es) :
    (handleHybiEvents c es).shutdown = c.shutdown
    ∧ (handleHybiEvents c es).inBuf = c.inBuf := by
  induction es generalizing c with
  | nil => exact ⟨rfl, rfl⟩
  | cons e es ih =>
    have hn' : ∀ p, HybiEvent.ping p ∉ es := fun p hp => hn p (List.mem_cons_of_mem _ hp)
    cases e with
    | text p =>
      have hstep : (hybiDeliverText c p).shutdown = c.shutdown
          ∧ (hybiDeliverText c p).inBuf = c.inBuf := by
        unfold hybiDeliverText handleWebSocketTextMessage
        split
        · exact ⟨rfl, rfl⟩
        · exact ⟨rfl, rfl⟩
      obtain ⟨h1, h2⟩ := ih (hybiDeliverText c p) hn'
      exact ⟨h1.trans hstep.1, h2.trans hstep.2⟩
    | binary p =>
      have hstep : (handleWebSocketBinaryMessage c p).shutdown = c.shutdown
          ∧ (handleWebSocketBinaryMessage c p).inBuf = c.inBuf := by
        unfold handleWebSocketBinaryMessage
        split
        · exact ⟨rfl, rfl⟩
        · exact ⟨rfl, rfl⟩
      obtain ⟨h1, h2⟩ := ih (handleWebSocketBinaryMessage c p) hn'
      exact ⟨h1.trans hstep.1, h2.trans hstep.2⟩
    | ping p => exact absurd (List.mem_cons_self _ _) (hn p)

theorem handleHixie_complete (c : ConnState) (p : List Nat)
    (hh : c.hasHandler = true) (hff : ∀ x ∈ p, x ≠ 0xff)
    (hb : c.inBuf = 0 :: (p ++ [0xff])) :
    handleHixieWebSocket c
      = { c with inBuf := [], events := c.events ++ [.onData (cString p)] } := by
  have hne : c.inBuf.isEmpty = false := by
    rw [hb]
    rfl
  have hext : hixieExtract c.inBuf = ([p], p.length + 2, false) := by
    rw [hb]
    exact hixieExtract_single p hff
  unfold handleHixieWebSocket
  rw [hne]
  simp only [Bool.false_eq_true, if_false]
  rw [hext]
  dsimp only [List.foldl_cons, List.foldl_nil]
  unfold handleWebSocketTextMessage
  rw [hh]
  simp only [if_true]
  have hdrop : List.drop (p.length + 2) c.inBuf = [] := by
    apply List.drop_eq_nil_of_le
    rw [hb]
    simp
  rw [hdrop]
  simp

/-- A Hixie connection whose buffer holds one complete 16385-byte text
message (0x00, 16385 payload bytes, 0xFF). -/
def hixieBigMsgConn : ConnState :=
  { initConn "seasocks" "now" [] true true with
      protoState := .HANDLING_HIXIE_WEBSOCKET, hasHandler := true,
      inBuf := 0 :: (List.replicate 16385 1 ++ [0xff]) }

/-- **C2 counterexample**: a complete decoded Hixie message of 16385
bytes (> 16 KiB) is delivered to the handler and the connection is NOT
closed — the 16 KiB check applies to the residual buffer, which is empty
here, not to the decoded message. -/
theorem c2_message_over_16k_counterexample :
    (handleHixieWebSocket hixieBigMsgConn).events
        = [.onData (List.replicate 16385 1)]
    ∧ MaxWebsocketMessageSize < (List.replicate 16385 (1 : Nat)).length
    ∧ (handleHixieWebSocket hixieBigMsgConn).shutdown = false
    ∧ closedC (handleHixieWebSocket hixieBigMsgConn) = false := by
  have hone : ∀ x ∈ List.replicate 16385 (1 : Nat), x ≠ 0xff := by
    intro x hx
    rw [List.eq_of_mem_replicate hx]
    decide
  have h := handleHixie_complete hixieBigMsgConn (List.replicate 16385 1) rfl hone rfl
  have hcs : cString (List.replicate 16385 (1 : Nat)) = List.replicate 16385 1 := by
    apply cString_all
    intro x hx
    rw [List.eq_of_mem_replicate hx]
    decide
  rw [h, hcs]
  refine ⟨rfl, ?_, rfl, rfl⟩
  rw [List.length_replicate]
  decide

/-- **C2 amended**: in both WebSocket states the 16 KiB bound is applied
to the input buffer left over after a decode pass: the Hixie handler
closes exactly when the scan hit a framing error or the unconsumed
residue exceeds `MaxWebsocketMessageSize`, and the Hybi handler (decoder
pass ending in `NoMessage`, no PINGs to answer) closes exactly when the
unconsumed residue exceeds `MaxWebsocketMessageSize`; a complete decoded
message larger than 16 KiB is delivered without forcing close. -/
theorem c2_residual_buffer_close (c : ConnState) (pass : DecodePass)
    (hsd : c.shutdown = false) (hne : c.inBuf.isEmpty = false)
    (hnoping : ∀ p, HybiEvent.ping p ∉ pass.events) :
    ((handleHixieWebSocket c).shutdown
       = ((hixieExtract c.inBuf).2.2
           || decide (MaxWebsocketMessageSize
                < c.inBuf.length - (hixieExtract c.inBuf).2.1)))
    ∧ (pass.terminal = .noMessage →
       (handleHybiWebSocket c pass).shutdown
         = decide (MaxWebsocketMessageSize < c.inBuf.length - pass.consumed)) := by
  constructor
  · unfold handleHixieWebSocket
    rw [hne]
    simp only [Bool.false_eq_true, if_false]
    rcases hext : hixieExtract c.inBuf with ⟨msgs, consumed, err⟩
    obtain ⟨hsh, hib⟩ := textFold_core msgs c
    dsimp only
    cases err with
    | true => simp [closeInternal]
    | false =>
      simp only [Bool.false_eq_true, if_false, Bool.false_or]
      rw [hib]
      by_cases hlt : MaxWebsocketMessageSize < (c.inBuf.drop consumed).length
      · rw [if_pos hlt]
        simp only [closeInternal]
        rw [List.length_drop] at hlt
        simp [hlt]
      · rw [if_neg hlt]
        rw [List.length_drop] at hlt
        simp only [hsh, hsd]
        simp [hlt]
  · intro hterm
    unfold handleHybiWebSocket
    rw [hne, hterm]
    simp only [Bool.false_eq_true, if_false]
    obtain ⟨hsh, hib⟩ := handleHybiEvents_core pass.events c hnoping
    dsimp only
    rw [hib]
    by_cases hlt : MaxWebsocketMessageSize < (c.inBuf.drop pass.consumed).length
    · rw [if_pos hlt]
      simp only [closeInternal]
      rw [List.length_drop] at hlt
      simp [hlt]
    · rw [if_neg hlt]
      rw [List.length_drop] at hlt
      simp only [hsh, hsd]
      simp [hlt]

/-- A Hixie-state connection with a framing error in its buffer. -/
def hixieErrConn : ConnState :=
  { initConn "seasocks" "now" [] true true with
      protoState := .HANDLING_HIXIE_WEBSOCKET, inBuf := [1] }

/-- Witness for the amended C2 at a concrete connection and pass. -/
theorem c2_residual_buffer_close_witness :
    ((handleHixieWebSocket hixieErrConn).shutdown
       = ((hixieExtract hixieErrConn.inBuf).2.2
           || decide (MaxWebsocketMessageSize
                < hixieErrConn.inBuf.length - (hixieExtract hixieErrConn.inBuf).2.1)))
    ∧ ((⟨[], 0, .noMessage⟩ : DecodePass).terminal = .noMessage →
       (handleHybiWebSocket hixieErrConn ⟨[], 0, .noMessage⟩).shutdown
         = decide (MaxWebsocketMessageSize
              < hixieErrConn.inBuf.length - (⟨[], 0, .noMessage⟩ : DecodePass).consumed)) :=
  c2_residual_buffer_close hixieErrConn ⟨[], 0, .noMessage⟩ rfl rfl
    (by intro p hp; simp at hp)

/-- **C9**: text WebSocket messages of both dialects reach `onData` as
NUL-terminated C strings, so a payload `a ++ 0 :: b` (no NUL in `a`) is
observed as exactly `a`: the Hixie handler, run on a buffer holding that
complete message, delivers `a` and nothing else of it, and the Hybi text
branch (payload plus appended 0 byte) likewise delivers `a`. -/
theorem c9_nul_truncates_text (c : ConnState) (a b : List Nat)
    (hh : c.hasHandler = true) (ha : ∀ x ∈ a, x ≠ 0)
    (hff : ∀ x ∈ a ++ 0 :: b, x ≠ 0xff)
    (hb : c.inBuf = 0 :: ((a ++ 0 :: b) ++ [0xff])) :
    (handleHixieWebSocket c
        = { c with inBuf := [], events := c.events ++ [.onData a] })
    ∧ (hybiDeliverText c (a ++ 0 :: b)
        = { c with events := c.events ++ [.onData a] }) := by
  have hcs : cString (a ++ 0 :: b) = a := cString_prefix a b ha
  constructor
  · rw [handleHixie_complete c (a ++ 0 :: b) hh hff hb, hcs]
  · unfold hybiDeliverText
    have hcs2 : cString ((a ++ 0 :: b) ++ [0]) = a := by
      have : (a ++ 0 :: b) ++ [0] = a ++ 0 :: (b ++ [0]) := by simp
      rw [this]
      exact cString_prefix a (b ++ [0]) ha
    rw [hcs2]
    unfold handleWebSocketTextMessage
    rw [hh]
    simp

/-- A Hixie connection holding the message `"he\0llo"` (NUL embedded). -/
def hixieNulConn : ConnState :=
  { initConn "seasocks" "now" [] true true with
      protoState := .HANDLING_HIXIE_WEBSOCKET, hasHandler := true,
      inBuf := 0 :: (([104, 101] ++ 0 :: [108, 108, 111]) ++ [0xff]) }

/-- Witness for C9: the handler sees only `"he"`. -/
theorem c9_nul_truncates_text_witness :
    (handleHixieWebSocket hixieNulConn
        = { hixieNulConn with
            inBuf := [], events := hixieNulConn.events ++ [.onData [104, 101]] })
    ∧ (hybiDeliverText hixieNulConn ([104, 101] ++ 0 :: [108, 108, 111])
        = { hixieNulConn with
            events := hixieNulConn.events ++ [.onData [104, 101]] }) :=
  c9_nul_truncates_text hixieNulConn [104, 101] [108, 108, 111] rfl
    (by decide) (by decide) rfl

/-- `parseWebSocketKey` (Connection.cpp lines 36-47), in accumulator
form: decimal digits fold into the 32-bit `keyNumber` (wrapping), space
characters count into the 32-bit `numSpaces`; at the end the key is
`keyNumber / numSpaces` when `numSpaces > 0`, else 0. -/
def parseWebSocketKeyAux : List Char → Nat → Nat → Nat
  | [], keyNumber, numSpaces => if 0 < numSpaces then keyNumber / numSpaces else 0
  | ch :: rest, keyNumber, numSpaces =>
    if '0' ≤ ch ∧ ch ≤ '9' then
      parseWebSocketKeyAux rest ((keyNumber * 10 + (ch.toNat - '0'.toNat)) % 2 ^ 32) numSpaces
    else if ch = ' ' then parseWebSocketKeyAux rest keyNumber ((numSpaces + 1) % 2 ^ 32)
    else parseWebSocketKeyAux rest keyNumber numSpaces

/-- `parseWebSocketKey` run on a header value. -/
def parseWebSocketKey (s : List Char) : Nat := parseWebSocketKeyAux s 0 0

/-- The claim's digit accumulator `N`: fold `N = N*10 + digit` over the
decimal digits of the string, wrapping modulo 2^32. -/
def hixieDigitFold (s : List Char) (n : Nat) : Nat :=
  s.foldl
    (fun n ch =>
      if '0' ≤ ch ∧ ch ≤ '9' then (n * 10 + (ch.toNat - '0'.toNat)) % 2 ^ 32 else n) n

/-- The claim's `S`: the number of space characters in the string. -/
def countSpaces (s : List Char) : Nat := s.countP (fun ch => ch == ' ')

theorem parseWebSocketKeyAux_eq (s : List Char) (n sp : Nat)
    (h : sp + countSpaces s < 2 ^ 32) :
    parseWebSocketKeyAux s n sp
      = if 0 < sp + countSpaces s then hixieDigitFold s n / (sp + countSpaces s) else 0 := by
  induction s generalizing n sp with
  | nil =>
    simp [parseWebSocketKeyAux, hixieDigitFold, countSpaces]
  | cons ch rest ih =>
    have hcnt : countSpaces (ch :: rest)
        = countSpaces rest + (if (ch == ' ') = true then 1 else 0) := by
      simp [countSpaces, List.countP_cons]
    by_cases hd : '0' ≤ ch ∧ ch ≤ '9'
    · have hns : (ch == ' ') = false := by
        rcases hd with ⟨h1, _⟩
        have : ch ≠ ' ' := by
          intro he
          rw [he] at h1
          exact absurd h1 (by decide)
        simpa using this
      rw [hcnt, hns] at h ⊢
      simp only [Bool.false_eq_true, if_false, Nat.add_zero] at h ⊢
      rw [parseWebSocketKeyAux, if_pos hd]
      rw [ih _ _ h]
      simp [hixieDigitFold, if_pos hd]
    · by_cases hsp : ch = ' '
      · have hns : (ch == ' ') = true := by simp [hsp]
        rw [hcnt, hns] at h ⊢
        simp only [if_true] at h ⊢
        rw [parseWebSocketKeyAux, if_neg hd, if_pos hsp]
        have hm : (sp + 1) % 2 ^ 32 = sp + 1 := Nat.mod_eq_of_lt (by omega)
        rw [hm, ih _ _ (by omega)]
        have he : sp + 1 + countSpaces rest = sp + (countSpaces rest + 1) := by omega
        rw [he]
        simp [hixieDigitFold, if_neg hd]
      · have hns : (ch == ' ') = false := by simpa using hsp
        rw [hcnt, hns] at h ⊢
        simp only [Bool.false_eq_true, if_false, Nat.add_zero] at h ⊢
        rw [parseWebSocketKeyAux, if_neg hd, if_neg hsp]
        rw [ih _ _ h]
        simp [hixieDigitFold, if_neg hd]

/-- **C5**: for every Hixie `Sec-WebSocket-Key1/2` value (of any
realistic length), the extracted key is `N / S` when `S > 0` and `0`
when `S = 0`, with `N` the wrapping 32-bit decimal-digit fold and `S`
the number of spaces. -/
theorem c5_hixie_key_extraction (s : List Char) (hlen : countSpaces s < 2 ^ 32) :
    parseWebSocketKey s
      = if 0 < countSpaces s then hixieDigitFold s 0 / countSpaces s else 0 := by
  have h := parseWebSocketKeyAux_eq s 0 0 (by omega)
  simpa using h

/-- Witness for C5 on the value `"18x 6]8vM;54 *(5:  {   U1]8  z [  8"`
(the RFC draft-76 Key1 example, whose digits fold to 1868545188 with 12
spaces). -/
theorem c5_hixie_key_extraction_witness :
    parseWebSocketKey "18x 6]8vM;54 *(5:  \x7b   U1]8  z [  8".data
      = if 0 < countSpaces "18x 6]8vM;54 *(5:  \x7b   U1]8  z [  8".data then
          hixieDigitFold "18x 6]8vM;54 *(5:  \x7b   U1]8  z [  8".data 0
            / countSpaces "18x 6]8vM;54 *(5:  \x7b   U1]8  z [  8".data
        else 0 :=
  c5_hixie_key_extraction _ (by decide)

/-- Character class of C `isspace` in the default locale. -/
def isSpaceC (ch : Char) : Bool :=
  ch.toNat = 32 || ch.toNat = 9 || ch.toNat = 10 || ch.toNat = 11
    || ch.toNat = 12 || ch.toNat = 13

/-- C decimal digit test. -/
def isDigitC (ch : Char) : Bool := decide ('0' ≤ ch) && decide (ch ≤ '9')

/-- The digit loop of C `atoi`: accumulate until the first non-digit. -/
def atoiDigits : List Char → Nat → Nat
  | [], acc => acc
  | ch :: rest, acc =>
    if isDigitC ch then atoiDigits rest (acc * 10 + (ch.toNat - '0'.toNat)) else acc

/-- C `atoi`: skip whitespace, optional sign, digits up to the first
non-digit.  The value is modelled unbounded; claims restrict themselves
to int-representable results (overflow is UB in C). -/
def atoiInt (s : List Char) : Int :=
  match s.dropWhile isSpaceC with
  | '-' :: rest => -(atoiDigits rest 0 : Int)
  | '+' :: rest => (atoiDigits rest 0 : Int)
  | rest => (atoiDigits rest 0 : Int)

/-- Line 743 of `processHeaders`: `contentLength = atoi(value)` where
`contentLength` is a `size_t`; the signed `int` is converted to unsigned
64-bit (reduction modulo 2^64). -/
def storedContentLength (value : List Char) : Nat :=
  ((atoiInt value) % (2 ^ 64 : Int)).toNat

/-- Outcome of the content-length epilogue of `processHeaders`
(lines 767-774): reject over-cap lengths with 400, dispatch immediately
at zero, otherwise buffer POST data. -/
inductive ContentLengthOutcome
  | rejected400 (reason : String)
  | dispatchNow
  | bufferPost
deriving DecidableEq, Repr

/-- The content-length epilogue of `processHeaders` (lines 767-774). -/
def processContentLength (value : List Char) : ContentLengthOutcome :=
  if MaxBufferSize < storedContentLength value then .rejected400 "Content length too long"
  else if storedContentLength value = 0 then .dispatchNow
  else .bufferPost

/-- **C10**: a `Content-Length` header whose `atoi` value is negative is
stored as a `size_t` above the 16 MiB cap (it wraps to ≥ 2^64 − 2^31),
so the request is rejected with `400 Content length too long` — never
treated as a zero-length body. -/
theorem c10_negative_content_length (value : List Char)
    (hrange : -(2 ^ 31 : Int) ≤ atoiInt value) (hneg : atoiInt value < 0) :
    MaxBufferSize < storedContentLength value
    ∧ processContentLength value = .rejected400 "Content length too long"
    ∧ storedContentLength value ≠ 0 := by
  have h2 : MaxBufferSize < storedContentLength value := by
    unfold storedContentLength MaxBufferSize
    omega
  refine ⟨h2, ?_, by omega⟩
  unfold processContentLength
  rw [if_pos h2]

/-- Witness for C10 at the header value `"-1"`. -/
theorem c10_negative_content_length_witness :
    MaxBufferSize < storedContentLength "-1".data
    ∧ processContentLength "-1".data = .rejected400 "Content length too long"
    ∧ storedContentLength "-1".data ≠ 0 :=
  c10_negative_content_length "-1".data (by decide) (by decide)

theorem write_nf (c : ConnState) (data : List Nat)
    (h1 : closedC c = false) (h2 : c.closeOnEmpty = false)
    (hcap : c.outBuf.length + data.length < MaxBufferSize) :
    write c data false = (true, { c with outBuf := c.outBuf ++ data }) := by
  unfold write
  rw [h1, h2]
  simp only [Bool.or_self, Bool.false_eq_true, if_false]
  by_cases hz : data.length = 0
  · rw [if_pos hz]
    have hd : data = [] := List.length_eq_zero.mp hz
    subst hd
    rw [List.append_nil]
    rw [← h2]
  · rw [if_neg hz]
    have hfp : (c.outBuf.isEmpty && false) = false := by simp
    rw [hfp]
    simp only [Bool.false_eq_true, if_false]
    unfold writeCore
    dsimp only
    rw [Nat.sub_zero, if_neg (by omega)]
    simp only [Bool.false_eq_true, if_false, List.drop_zero]
    rw [h2]

/-- The CRLF line terminator. -/
def crlf : String := "\r\n"

theorem bufferLine_nf (c : ConnState) (line : String)
    (h1 : closedC c = false) (h2 : c.closeOnEmpty = false)
    (hcap : c.outBuf.length + (strBytes (line ++ crlf)).length < MaxBufferSize) :
    bufferLine c line = { c with outBuf := c.outBuf ++ strBytes (line ++ crlf) } := by
  unfold bufferLine
  rw [show line ++ "\r\n" = line ++ crlf from rfl]
  rw [write_nf c _ h1 h2 hcap]

/-- A run of `bufferLine` calls. -/
def bufferLines (c : ConnState) (ls : List String) : ConnState :=
  ls.foldl bufferLine c

/-- The bytes a run of `bufferLine` calls appends. -/
def linesBytes (ls : List String) : List Nat :=
  (ls.map (fun l => strBytes (l ++ crlf))).flatten

theorem bufferLines_nf (ls : List String) (c : ConnState)
    (h1 : closedC c = false) (h2 : c.closeOnEmpty = false)
    (hcap : c.outBuf.length + (linesBytes ls).length < MaxBufferSize) :
    bufferLines c ls = { c with outBuf := c.outBuf ++ linesBytes ls } := by
  induction ls generalizing c with
  | nil =>
    simp only [bufferLines, List.foldl_nil, linesBytes, List.map_nil, List.flatten]
    simp
  | cons l ls ih =>
    have hlb : linesBytes (l :: ls) = strBytes (l ++ crlf) ++ linesBytes ls := by
      simp [linesBytes]
    rw [hlb] at hcap
    have hcap1 : c.outBuf.length + (strBytes (l ++ crlf)).length < MaxBufferSize := by
      simp only [List.length_append] at hcap
      omega
    have hstep := bufferLine_nf c l h1 h2 hcap1
    simp only [bufferLines, List.foldl_cons] at ih ⊢
    rw [hstep]
    rw [ih { c with outBuf := c.outBuf ++ strBytes (l ++ crlf) } h1 h2
        (by simp only [List.length_append] at hcap ⊢; omega)]
    simp only [hlb, List.append_assoc]

/-- Modelled from the spec: seasocks/ResponseCode.h is not under src/;
§4.6-§7 fix the numeric codes and reason phrases the engine emits. -/
inductive ResponseCode
  | Ok
  | PartialContent
  | WebSocketProtocolHandshake
  | BadRequest
  | NotFound
  | InternalServerError
  | NotImplemented
deriving DecidableEq, Repr

/-- Modelled from the spec: the numeric value of each response code. -/
def responseCodeInt : ResponseCode → Nat
  | .Ok => 200
  | .PartialContent => 206
  | .WebSocketProtocolHandshake => 101
  | .BadRequest => 400
  | .NotFound => 404
  | .InternalServerError => 500
  | .NotImplemented => 501

/-- Modelled from the spec: the reason phrase (`::name`) of each code. -/
def responseCodeName : ResponseCode → String
  | .Ok => "OK"
  | .PartialContent => "Partial Content"
  | .WebSocketProtocolHandshake => "Switching Protocols"
  | .BadRequest => "Bad Request"
  | .NotFound => "Not Found"
  | .InternalServerError => "Internal Server Error"
  | .NotImplemented => "Not Implemented"

/-- The four common header lines of
`Connection::bufferResponseAndCommonHeaders` (lines 1021-1030). -/
def commonHeaderLines (version now : String) (code : ResponseCode) : List String :=
  ["HTTP/1.1 " ++ toString (responseCodeInt code) ++ " " ++ responseCodeName code,
   "Server: " ++ version,
   "Date: " ++ now,
   "Access-Control-Allow-Origin: *"]

/-- `Connection::bufferResponseAndCommonHeaders`. -/
def bufferResponseAndCommonHeaders (c : ConnState) (code : ResponseCode) : ConnState :=
  bufferLines c (commonHeaderLines c.serverVersion c.nowStr code)

theorem bufferResponseAndCommonHeaders_nf (c : ConnState) (code : ResponseCode)
    (h1 : closedC c = false) (h2 : c.closeOnEmpty = false)
    (hcap : c.outBuf.length
        + (linesBytes (commonHeaderLines c.serverVersion c.nowStr code)).length
        < MaxBufferSize) :
    bufferResponseAndCommonHeaders c code
      = { c with outBuf := c.outBuf
            ++ linesBytes (commonHeaderLines c.serverVersion c.nowStr code) } := by
  unfold bufferResponseAndCommonHeaders
  exact bufferLines_nf _ c h1 h2 hcap

/-- `std::numeric_limits<long>::max()` on LP64. -/
def longMax : Int := 9223372036854775807

/-- `Connection::Range` (declared in seasocks/Connection.h, not under
src/): a pair of signed 64-bit offsets with the inclusive-end convention
(§3 of the spec); `end` is a Lean keyword, so the field is `endInc`. -/
structure Range where
  start : Int
  endInc : Int
deriving DecidableEq, Repr

/-- Modelled from the spec: `Range::length` (seasocks/Connection.h, not
under src/) — inclusive-end length `end - start + 1`. -/
def rangeLen (r : Range) : Int := r.endInc - r.start + 1

/-- `Connection::parseRange` (lines 874-895): split at the first '-'
(none → fail); a leading '-' keeps atoi's negative value as `start` with
`end` = long max ("suffix" form); a trailing '-' gives atoi(prefix) to
long max; otherwise both atoi values. -/
def parseRange (rangeStr : List Char) : Option Range :=
  match rangeStr.findIdx? (fun ch => ch == '-') with
  | none => none
  | some minusPos =>
    if minusPos = 0 then some ⟨atoiInt rangeStr, longMax⟩
    else if minusPos = rangeStr.length - 1 then
      some ⟨atoiInt (rangeStr.take minusPos), longMax⟩
    else
      some ⟨atoiInt (rangeStr.take minusPos), atoiInt (rangeStr.drop (minusPos + 1))⟩

/-- Modelled from the spec: `split` (seasocks StringUtil, not under
src/) — §4.4: the `Range` list is comma-separated. -/
def splitCommaAux : List Char → List Char → List (List Char)
  | [], acc => [acc.reverse]
  | ch :: rest, acc =>
    if ch = ',' then acc.reverse :: splitCommaAux rest []
    else splitCommaAux rest (ch :: acc)

/-- Split on commas. -/
def splitComma (s : List Char) : List (List Char) := splitCommaAux s []

/-- `Connection::parseRanges` (lines 897-912): require the `bytes=`
prefix, split the remainder on commas, parse every element in order;
fail on a bad prefix, any element parse failure, or an empty list. -/
def parseRanges (range : List Char) : Option (List Range) :=
  if range.length < 6 ∨ range.take 6 ≠ "bytes=".data then none
  else
    let parts := splitComma (range.drop 6)
    let parsed := parts.foldl
      (fun acc part =>
        match acc with
        | none => none
        | some rs =>
          match parseRange part with
          | none => none
          | some r => some (rs ++ [r])) (some [])
    match parsed with
    | none => none
    | some rs => if rs.isEmpty then none else some rs

/-- Signed 32-bit wrap (the `int contentLength` accumulator of
`processRangesForStaticData`). -/
def wrap32 (v : Int) : Int := (v + 2 ^ 31) % 2 ^ 32 - 2 ^ 31

/-- The clamping of one range inside the loop of
`processRangesForStaticData` (lines 931-940): negative starts count from
the end of the file; starts and ends at or past the file size clamp to
the last byte. -/
def normalizeRange (fileSize : Int) (r : Range) : Range :=
  let s1 := if r.start < 0 then r.start + fileSize else r.start
  let s2 := if fileSize ≤ s1 then fileSize - 1 else s1
  let e2 := if fileSize ≤ r.endInc then fileSize - 1 else r.endInc
  ⟨s2, e2⟩

/-- The loop of `processRangesForStaticData` (lines 930-944): accumulate
the `int` content length, the `Content-Range` text, and the normalised
ranges, in order. -/
def rangesLoop (fileSize : Int) (cl : Int) (line : String) (sendRanges : List Range) :
    List Range → Int × String × List Range
  | [] => (cl, line, sendRanges)
  | r :: rest =>
    let a := normalizeRange fileSize r
    rangesLoop fileSize (wrap32 (cl + rangeLen a))
      (line ++ toString a.start ++ "-" ++ toString a.endInc) (sendRanges ++ [a]) rest

/-- `Connection::processRangesForStaticData` (lines 916-949): a
non-range request gets `200 OK` with the whole file; otherwise `206
Partial Content` with the concatenated `Content-Range` header and the
summed `Content-Length`. -/
def processRangesForStaticData (c : ConnState) (origRanges : List Range) (fileSize : Int) :
    ConnState × List Range :=
  if origRanges.isEmpty then
    let c := bufferResponseAndCommonHeaders c .Ok
    let c := bufferLine c ("Content-Length: " ++ toString fileSize)
    (c, [⟨0, fileSize - 1⟩])
  else
    let c := bufferResponseAndCommonHeaders c .PartialContent
    match rangesLoop fileSize 0 "Content-Range: bytes " [] origRanges with
    | (contentLength, rangeLine, sendRanges) =>
      let c := bufferLine c (rangeLine ++ "/" ++ toString fileSize)
      let c := bufferLine c ("Content-Length: " ++ toString contentLength)
      (c, sendRanges)

/-- Concatenation of a list of strings with no separators. -/
def concatStrs : List String → String
  | [] => ""
  | s :: rest => s ++ concatStrs rest

theorem normalizeRange_ab (S a b : Int) (h0 : 0 ≤ a) (h1 : a < S) :
    normalizeRange S ⟨a, b⟩ = ⟨a, min b (S - 1)⟩ := by
  unfold normalizeRange
  dsimp only
  rw [if_neg (by omega), if_neg (by omega)]
  by_cases hb : S ≤ b
  · rw [if_pos hb, min_eq_right (by omega)]
  · rw [if_neg hb, min_eq_left (by omega)]

theorem wrap32_id (v : Int) (h1 : -(2 ^ 31) ≤ v) (h2 : v ≤ 2 ^ 31 - 1) : wrap32 v = v := by
  unfold wrap32
  omega

/-- The formatted text of one normalised range, as the loop emits it. -/
def rangeText (S : Int) (r : Range) : String :=
  toString (normalizeRange S r).start ++ "-" ++ toString (normalizeRange S r).endInc

theorem rangesLoop_spec (S : Int) (rs : List Range) (cl : Int) (line : String)
    (acc : List Range)
    (hpos : ∀ r ∈ rs, 0 ≤ rangeLen (normalizeRange S r))
    (hcl : 0 ≤ cl)
    (hsum : cl + ((rs.map (normalizeRange S)).map rangeLen).sum ≤ 2 ^ 31 - 1) :
    rangesLoop S cl line acc rs
      = (cl + ((rs.map (normalizeRange S)).map rangeLen).sum,
         line ++ concatStrs (rs.map (rangeText S)),
         acc ++ rs.map (normalizeRange S)) := by
  induction rs generalizing cl line acc with
  | nil =>
    simp only [rangesLoop, List.map_nil, List.sum_nil, Int.add_zero, concatStrs,
      String.append_empty, List.append_nil]
  | cons r rest ih =>
    have hr : 0 ≤ rangeLen (normalizeRange S r) := hpos r (by simp)
    have hrest : ∀ x ∈ rest, 0 ≤ rangeLen (normalizeRange S x) :=
      fun x hx => hpos x (by simp [hx])
    have hsums : 0 ≤ ((rest.map (normalizeRange S)).map rangeLen).sum := by
      apply List.sum_nonneg
      intro x hx
      simp only [List.map_map, List.mem_map] at hx
      obtain ⟨y, hy, hxy⟩ := hx
      rw [← hxy]
      exact hrest y hy
    have hsum' : (cl + rangeLen (normalizeRange S r))
        + ((rest.map (normalizeRange S)).map rangeLen).sum ≤ 2 ^ 31 - 1 := by
      simp only [List.map_cons, List.sum_cons] at hsum
      omega
    rw [rangesLoop]
    rw [wrap32_id _ (by omega) (by omega)]
    rw [ih _ _ _ hrest (by omega) hsum']
    simp only [List.map_cons, List.sum_cons, concatStrs, Prod.mk.injEq]
    refine ⟨by omega, ?_, by simp⟩
    rw [rangeText]
    simp [String.append_assoc]

theorem linesBytes_append (xs ys : List String) :
    linesBytes (xs ++ ys) = linesBytes xs ++ linesBytes ys := by
  simp [linesBytes]

/-- The `Content-Range` header line text of a 206 response: the
normalised ranges concatenated with no separators, then `/size`. -/
def contentRangeText (S : Int) (rs : List Range) : String :=
  "Content-Range: bytes " ++ concatStrs (rs.map (rangeText S)) ++ "/" ++ toString S

/-- All header lines a 206 partial-content response buffers: the common
headers, the concatenated `Content-Range`, and a `Content-Length` equal
to the sum of the normalised interval lengths. -/
def partialContentLines (version now : String) (S : Int) (rs : List Range) : List String :=
  commonHeaderLines version now .PartialContent
    ++ [contentRangeText S rs,
        "Content-Length: " ++ toString (((rs.map (normalizeRange S)).map rangeLen).sum)]

theorem processRangesForStaticData_spec (c : ConnState) (origRanges : List Range) (S : Int)
    (h1 : closedC c = false) (h2 : c.closeOnEmpty = false)
    (hne : origRanges ≠ [])
    (hpos : ∀ r ∈ origRanges, 0 ≤ rangeLen (normalizeRange S r))
    (hsum : ((origRanges.map (normalizeRange S)).map rangeLen).sum ≤ 2 ^ 31 - 1)
    (hcap : c.outBuf.length
        + (linesBytes (partialContentLines c.serverVersion c.nowStr S origRanges)).length
        < MaxBufferSize) :
    processRangesForStaticData c origRanges S
      = ({ c with outBuf := c.outBuf
             ++ linesBytes (partialContentLines c.serverVersion c.nowStr S origRanges) },
         origRanges.map (normalizeRange S)) := by
  have hnee : origRanges.isEmpty = false := by
    cases origRanges with
    | nil => exact absurd rfl hne
    | cons r rest => rfl
  unfold processRangesForStaticData
  rw [hnee]
  simp only [Bool.false_eq_true, if_false]
  have hsum0 : 0 ≤ ((origRanges.map (normalizeRange S)).map rangeLen).sum := by
    apply List.sum_nonneg
    intro x hx
    simp only [List.map_map, List.mem_map] at hx
    obtain ⟨y, hy, hxy⟩ := hx
    rw [← hxy]
    exact hpos y hy
  rw [rangesLoop_spec S origRanges 0 "Content-Range: bytes " [] hpos (le_refl 0)
      (by omega)]
  dsimp only
  rw [Int.zero_add, List.nil_append]
  have eAll : bufferLine (bufferLine (bufferResponseAndCommonHeaders c .PartialContent)
        ("Content-Range: bytes " ++ concatStrs (origRanges.map (rangeText S))
          ++ "/" ++ toString S))
        ("Content-Length: " ++ toString (((origRanges.map (normalizeRange S)).map rangeLen).sum))
      = bufferLines c (partialContentLines c.serverVersion c.nowStr S origRanges) := by
    simp only [partialContentLines, bufferResponseAndCommonHeaders, bufferLines,
      List.foldl_append, List.foldl_cons, List.foldl_nil, contentRangeText]
  rw [eAll]
  rw [bufferLines_nf _ c h1 h2 hcap]

/-- **C4**: range handling: each range element is normalised against the
file size S (a-b → a..min(b,S−1); a- → a..S−1 via the long-max sentinel;
-n → (S−n)..S−1); a non-empty range list yields a 206 Partial Content
response whose `Content-Range` header concatenates the normalised ranges
with no separators followed by /S and whose `Content-Length` equals the
sum of the normalised interval lengths; and the four S=1000 examples
parse and normalise as the claim states. -/
theorem c4_range_engine :
    (∀ S a b : Int, 0 ≤ a → a < S →
       normalizeRange S ⟨a, b⟩ = ⟨a, min b (S - 1)⟩)
    ∧ (∀ S a : Int, 0 ≤ a → a < S → S ≤ longMax →
       normalizeRange S ⟨a, longMax⟩ = ⟨a, S - 1⟩)
    ∧ (∀ S n : Int, 0 < n → n ≤ S → S ≤ longMax →
       normalizeRange S ⟨-n, longMax⟩ = ⟨S - n, S - 1⟩)
    ∧ (∀ (c : ConnState) (origRanges : List Range) (S : Int),
       closedC c = false → c.closeOnEmpty = false → origRanges ≠ [] →
       (∀ r ∈ origRanges, 0 ≤ rangeLen (normalizeRange S r)) →
       ((origRanges.map (normalizeRange S)).map rangeLen).sum ≤ 2 ^ 31 - 1 →
       c.outBuf.length
           + (linesBytes (partialContentLines c.serverVersion c.nowStr S origRanges)).length
           < MaxBufferSize →
       processRangesForStaticData c origRanges S
         = ({ c with outBuf := c.outBuf
                ++ linesBytes (partialContentLines c.serverVersion c.nowStr S origRanges) },
            origRanges.map (normalizeRange S)))
    ∧ (parseRanges "bytes=0-99".data).map (fun rs => rs.map (normalizeRange 1000))
        = some [⟨0, 99⟩]
    ∧ (parseRanges "bytes=-100".data).map (fun rs => rs.map (normalizeRange 1000))
        = some [⟨900, 999⟩]
    ∧ (parseRanges "bytes=500-".data).map (fun rs => rs.map (normalizeRange 1000))
        = some [⟨500, 999⟩]
    ∧ (parseRanges "bytes=0-99,200-299".data).map
          (fun rs => ((rs.map (normalizeRange 1000)).map rangeLen).sum)
        = some 200 := by
  refine ⟨normalizeRange_ab, ?_, ?_, processRangesForStaticData_spec,
    by decide, by decide, by decide, by decide⟩
  · intro S a h0 h1 hmax
    rw [normalizeRange_ab S a longMax h0 h1, min_eq_right (by omega)]
  · intro S n h0 h1 hmax
    have hx2 : (-n : Int) < 0 := by omega
    have hx3 : ¬ (S ≤ -n + S) := by omega
    simp only [normalizeRange, if_pos hx2, if_neg hx3, if_pos hmax, Range.mk.injEq]
    exact ⟨by omega, trivial⟩

/-- A fresh connection used by the C4 witness. -/
def rangeConnEx : ConnState := initConn "seasocks" "now" [] true true

set_option maxRecDepth 8000 in
/-- Witness for C4: concrete normalisations and the concrete 206
response for `bytes=0-99,200-299` on a 1000-byte file. -/
theorem c4_range_engine_witness :
    normalizeRange 1000 ⟨0, 99⟩ = ⟨0, min 99 (1000 - 1)⟩
    ∧ normalizeRange 1000 ⟨500, longMax⟩ = ⟨500, 1000 - 1⟩
    ∧ normalizeRange 1000 ⟨-100, longMax⟩ = ⟨1000 - 100, 1000 - 1⟩
    ∧ processRangesForStaticData rangeConnEx [⟨0, 99⟩, ⟨200, 299⟩] 1000
        = ({ rangeConnEx with
              outBuf := rangeConnEx.outBuf ++ linesBytes (partialContentLines
                rangeConnEx.serverVersion rangeConnEx.nowStr 1000 [⟨0, 99⟩, ⟨200, 299⟩]) },
           [⟨0, 99⟩, ⟨200, 299⟩].map (normalizeRange 1000)) := by
  obtain ⟨hab, ha, hn, hproc, _, _, _, _⟩ := c4_range_engine
  exact ⟨hab 1000 0 99 (by decide) (by decide),
         ha 1000 500 (by decide) (by decide) (by decide),
         hn 1000 100 (by decide) (by decide) (by decide),
         hproc rangeConnEx [⟨0, 99⟩, ⟨200, 299⟩] 1000 rfl rfl (by decide) (by decide)
           (by decide) (by decide)⟩

/-- Whitespace as the request-line tokenizer sees it. -/
def isWsC (ch : Char) : Bool := ch == ' ' || ch == '\t'

/-- Modelled from the spec: `shift` (seasocks StringUtil, not under
src/) — §4.1: the request line is split into whitespace-separated
tokens.  `shift` skips leading whitespace; at end of line it fails;
otherwise it returns the next token (NUL-terminated in place, which
consumes one trailing delimiter character) and the rest of the line. -/
def shift (s : List Char) : Option (List Char × List Char) :=
  match s.dropWhile isWsC with
  | [] => none
  | s' =>
    some (s'.takeWhile (fun ch => !isWsC ch),
      match s'.dropWhile (fun ch => !isWsC ch) with
      | [] => []
      | _ :: r => r)

/-- `Request::Verb` (seasocks Request.h, not under src/; §3 lists the
values). -/
inductive Verb
  | Invalid
  | WebSocket
  | Get
  | Post
  | Put
  | Delete
deriving DecidableEq, Repr

/-- Modelled from the spec: `Request::verb` (not under src/) — §6: the
verbs recognised for dispatch are GET, POST, PUT and DELETE; anything
else is Invalid (WebSocket is assigned internally after upgrade
detection, never parsed). -/
def requestVerb (s : List Char) : Verb :=
  if s = "GET".data then .Get
  else if s = "POST".data then .Post
  else if s = "PUT".data then .Put
  else if s = "DELETE".data then .Delete
  else .Invalid

/-- Outcome of the request-line prefix of `Connection::processHeaders`:
`badRequest` is `sendBadRequest` (HTTP 400), `notImplemented` is
`sendUnsupportedError` (HTTP 501). -/
inductive ReqLineResult
  | badRequest (reason : String)
  | notImplemented (reason : String)
  | ok (verb : Verb) (uri : List Char)
deriving DecidableEq, Repr

/-- Lines 671-699 of `Connection::processHeaders`: shift off the verb,
the request URI and the HTTP version; 400 on a missing token or an
unrecognised verb; 501 when the version token is not exactly `HTTP/1.1`
(checked before the trailing test); 400 on trailing content. -/
def processRequestLine (line : List Char) : ReqLineResult :=
  match shift line with
  | none => .badRequest "Malformed request line"
  | some (verbText, rest1) =>
    if requestVerb verbText = .Invalid then .badRequest "Malformed request line"
    else
      match shift rest1 with
      | none => .badRequest "Malformed request line"
      | some (requestUri, rest2) =>
        match shift rest2 with
        | none => .badRequest "Malformed request line"
        | some (httpVersion, rest3) =>
          if httpVersion ≠ "HTTP/1.1".data then .notImplemented "Unsupported HTTP version"
          else if rest3 ≠ [] then .badRequest "Trailing crap after http version"
          else .ok (requestVerb verbText) requestUri

/-- A token: no whitespace characters inside. -/
abbrev wsFree (l : List Char) : Prop := ∀ ch ∈ l, isWsC ch = false

theorem takeDropWhile_token (t : List Char) (x : Char) (r : List Char)
    (hw : ∀ ch ∈ t, isWsC ch = false) (hx : isWsC x = true) :
    (t ++ x :: r).takeWhile (fun ch => !isWsC ch) = t
    ∧ (t ++ x :: r).dropWhile (fun ch => !isWsC ch) = x :: r := by
  induction t with
  | nil => simp [List.takeWhile_cons, List.dropWhile_cons, hx]
  | cons c ts ih =>
    have hc : isWsC c = false := hw c (by simp)
    have hts : ∀ ch ∈ ts, isWsC ch = false := fun ch hm => hw ch (by simp [hm])
    obtain ⟨ih1, ih2⟩ := ih hts
    simp [List.takeWhile_cons, List.dropWhile_cons, hc, ih1, ih2]

theorem takeDropWhile_all (t : List Char) (hw : ∀ ch ∈ t, isWsC ch = false) :
    t.takeWhile (fun ch => !isWsC ch) = t
    ∧ t.dropWhile (fun ch => !isWsC ch) = [] := by
  induction t with
  | nil => simp
  | cons c ts ih =>
    have hc : isWsC c = false := hw c (by simp)
    have hts : ∀ ch ∈ ts, isWsC ch = false := fun ch hm => hw ch (by simp [hm])
    obtain ⟨ih1, ih2⟩ := ih hts
    simp [List.takeWhile_cons, List.dropWhile_cons, hc, ih1, ih2]

theorem shift_sep (t r : List Char) (ht : t ≠ []) (hw : wsFree t) :
    shift (t ++ ' ' :: r) = some (t, r) := by
  cases t with
  | nil => exact absurd rfl ht
  | cons c ts =>
    have hc : isWsC c = false := hw c (by simp)
    have hts : ∀ ch ∈ ts, isWsC ch = false := fun ch hm => hw ch (by simp [hm])
    obtain ⟨h1, h2⟩ := takeDropWhile_token ts ' ' r hts rfl
    unfold shift
    rw [List.cons_append, List.dropWhile_cons]
    rw [hc]
    simp only [Bool.false_eq_true, if_false]
    simp only [List.takeWhile_cons, List.dropWhile_cons, hc, Bool.not_false, if_true, h1, h2]

theorem shift_last (t : List Char) (ht : t ≠ []) (hw : wsFree t) :
    shift t = some (t, []) := by
  cases t with
  | nil => exact absurd rfl ht
  | cons c ts =>
    have hc : isWsC c = false := hw c (by simp)
    have hts : ∀ ch ∈ ts, isWsC ch = false := fun ch hm => hw ch (by simp [hm])
    obtain ⟨h1, h2⟩ := takeDropWhile_all ts hts
    unfold shift
    rw [List.dropWhile_cons]
    rw [hc]
    simp only [Bool.false_eq_true, if_false]
    simp only [List.takeWhile_cons, List.dropWhile_cons, hc, Bool.not_false, if_true, h1, h2]

theorem verb_token (v : List Char) (h : requestVerb v ≠ .Invalid) :
    v ≠ [] ∧ wsFree v := by
  unfold requestVerb at h
  split_ifs at h with h1 h2 h3 h4
  · subst h1
    exact ⟨by decide, by decide⟩
  · subst h2
    exact ⟨by decide, by decide⟩
  · subst h3
    exact ⟨by decide, by decide⟩
  · subst h4
    exact ⟨by decide, by decide⟩
  · exact absurd rfl h

/-- **C8**: the request line is split into exactly three
whitespace-separated tokens (verb, URI, HTTP version): a missing token,
an unrecognised verb, or trailing content after the version is rejected
with 400 (`Malformed request line` / `Trailing crap after http
version`), a present version other than `HTTP/1.1` with 501
(`Unsupported HTTP version`, checked before the trailing test), and a
well-formed line is accepted with its verb and URI. -/
theorem c8_request_line :
    (processRequestLine [] = .badRequest "Malformed request line")
    ∧ (∀ v : List Char, v ≠ [] → wsFree v →
        processRequestLine v = .badRequest "Malformed request line")
    ∧ (∀ v u : List Char, v ≠ [] → wsFree v → u ≠ [] → wsFree u →
        processRequestLine (v ++ ' ' :: u) = .badRequest "Malformed request line")
    ∧ (∀ v u ver : List Char, requestVerb v = .Invalid → v ≠ [] → wsFree v →
        processRequestLine (v ++ ' ' :: (u ++ ' ' :: ver))
          = .badRequest "Malformed request line")
    ∧ (∀ v u ver : List Char, requestVerb v ≠ .Invalid → u ≠ [] → wsFree u →
        ver ≠ [] → wsFree ver → ver ≠ "HTTP/1.1".data →
        processRequestLine (v ++ ' ' :: (u ++ ' ' :: ver))
          = .notImplemented "Unsupported HTTP version")
    ∧ (∀ v u extra : List Char, requestVerb v ≠ .Invalid → u ≠ [] → wsFree u →
        extra ≠ [] →
        processRequestLine (v ++ ' ' :: (u ++ ' ' :: ("HTTP/1.1".data ++ ' ' :: extra)))
          = .badRequest "Trailing crap after http version")
    ∧ (∀ v u : List Char, requestVerb v ≠ .Invalid → u ≠ [] → wsFree u →
        processRequestLine (v ++ ' ' :: (u ++ ' ' :: "HTTP/1.1".data))
          = .ok (requestVerb v) u) := by
  refine ⟨rfl, ?_, ?_, ?_, ?_, ?_, ?_⟩
  · intro v hv hw
    unfold processRequestLine
    rw [shift_last v hv hw]
    dsimp only
    by_cases hverb : requestVerb v = .Invalid
    · rw [if_pos hverb]
    · rw [if_neg hverb]
      rfl
  · intro v u hv hwv hu hwu
    unfold processRequestLine
    rw [shift_sep v u hv hwv]
    dsimp only
    by_cases hverb : requestVerb v = .Invalid
    · rw [if_pos hverb]
    · rw [if_neg hverb]
      rw [shift_last u hu hwu]
      rfl
  · intro v u ver hverb hv hwv
    unfold processRequestLine
    rw [shift_sep v _ hv hwv]
    dsimp only
    rw [if_pos hverb]
  · intro v u ver hverb hu hwu hver hwver hne
    obtain ⟨hv, hwv⟩ := verb_token v hverb
    unfold processRequestLine
    rw [shift_sep v _ hv hwv]
    dsimp only
    rw [if_neg hverb]
    rw [shift_sep u _ hu hwu]
    dsimp only
    rw [shift_last ver hver hwver]
    dsimp only
    rw [if_pos hne]
  · intro v u extra hverb hu hwu hex
    obtain ⟨hv, hwv⟩ := verb_token v hverb
    unfold processRequestLine
    rw [shift_sep v _ hv hwv]
    dsimp only
    rw [if_neg hverb]
    rw [shift_sep u _ hu hwu]
    dsimp only
    rw [shift_sep "HTTP/1.1".data extra (by decide) (by decide)]
    dsimp only
    rw [if_neg (show ¬("HTTP/1.1".data ≠ "HTTP/1.1".data) from fun h => h rfl)]
    rw [if_pos hex]
  · intro v u hverb hu hwu
    obtain ⟨hv, hwv⟩ := verb_token v hverb
    unfold processRequestLine
    rw [shift_sep v _ hv hwv]
    dsimp only
    rw [if_neg hverb]
    rw [shift_sep u _ hu hwu]
    dsimp only
    rw [shift_last "HTTP/1.1".data (by decide) (by decide)]
    dsimp only
    rw [if_neg (show ¬("HTTP/1.1".data ≠ "HTTP/1.1".data) from fun h => h rfl)]
    rw [if_neg (show ¬(([] : List Char) ≠ []) from fun h => h rfl)]

/-- Witness for C8: `GET / HTTP/1.1` is accepted; `GET / HTTP/1.0` gets
501; `GET / HTTP/1.1 junk` gets 400. -/
theorem c8_request_line_witness :
    processRequestLine ("GET".data ++ ' ' :: ("/".data ++ ' ' :: "HTTP/1.1".data))
      = .ok (requestVerb "GET".data) "/".data
    ∧ processRequestLine ("GET".data ++ ' ' :: ("/".data ++ ' ' :: "HTTP/1.0".data))
      = .notImplemented "Unsupported HTTP version"
    ∧ processRequestLine
        ("GET".data ++ ' ' :: ("/".data ++ ' ' :: ("HTTP/1.1".data ++ ' ' :: "junk".data)))
      = .badRequest "Trailing crap after http version" := by
  obtain ⟨p1, p2, p3, p4, p5, p6, p7⟩ := c8_request_line
  exact ⟨p7 "GET".data "/".data (by decide) (by decide) (by decide),
         p5 "GET".data "/".data "HTTP/1.0".data (by decide) (by decide) (by decide)
           (by decide) (by decide) (by decide),
         p6 "GET".data "/".data "junk".data (by decide) (by decide) (by decide) (by decide)⟩

theorem isEmpty_append_right (a b : List Nat) (hb : 0 < b.length) :
    (a ++ b).isEmpty = false := by
  cases h : (a ++ b).isEmpty
  · rfl
  · exfalso
    have he : a ++ b = [] := List.isEmpty_iff.mp h
    have hlen := congrArg List.length he
    simp only [List.length_append, List.length_nil] at hlen
    omega

theorem flush_ok (c : ConnState)
    (h0 : c.hadSendError = false)
    (h1 : closedC c = false) (h2 : c.closeOnEmpty = false)
    (h3 : c.sends = []) (h4 : c.subOk = true) :
    flush c = (true, { c with registeredForWriteEvents :=
        c.registeredForWriteEvents || !c.outBuf.isEmpty }) := by
  obtain ⟨fdo, sd, sbu, hse, coe, reg, outB, inB, bs, w, el, ps, hh, ev, k0, k1, hx, sv, ns,
    sds, so, uo⟩ := c
  dsimp only at h0 h1 h2 h3 h4 ⊢
  subst h0 h2 h3 h4
  unfold closedC at h1
  dsimp only at h1
  obtain ⟨hfd, hsd⟩ : fdo = true ∧ sd = false := by
    cases fdo <;> cases sd <;> simp_all
  subst hfd hsd
  cases reg <;> cases outB <;>
    simp [flush, safeSend, popSend, flushSub, flushTail, closedC]

theorem isEmpty_append_left (a b : List Nat) (ha : a.isEmpty = false) :
    (a ++ b).isEmpty = false := by
  cases a
  · simp at ha
  · simp

theorem write_fl (c : ConnState) (data : List Nat)
    (h0 : c.hadSendError = false) (h1 : closedC c = false) (h2 : c.closeOnEmpty = false)
    (h3 : c.sends = []) (h4 : c.subOk = true)
    (hne : c.outBuf.isEmpty = false)
    (h5 : c.outBuf.length + data.length < MaxBufferSize) :
    write c data true
      = (true, { c with
          outBuf := c.outBuf ++ data, registeredForWriteEvents := true }) := by
  have hcond : ¬ (closedC c || c.closeOnEmpty) = true := by
    rw [h1, h2]
    simp
  by_cases hz : data.length = 0
  · have hd : data = [] := List.length_eq_zero.mp hz
    subst hd
    unfold write
    rw [if_neg hcond, if_pos (show ([] : List Nat).length = 0 from rfl)]
    rw [flush_ok c h0 h1 h2 h3 h4, hne]
    simp
  · have hfast : ¬ (c.outBuf.isEmpty && true) = true := by
      rw [hne]
      simp
    unfold write
    rw [if_neg hcond, if_neg hz, if_neg hfast]
    unfold writeCore
    dsimp only
    rw [Nat.sub_zero, if_neg (by omega), if_pos rfl, List.drop_zero]
    rw [flush_ok { c with outBuf := c.outBuf ++ data } h0 h1 h2 h3 h4]
    rw [show ({ c with outBuf := c.outBuf ++ data } : ConnState).outBuf.isEmpty
        = false from isEmpty_append_left _ _ hne]
    simp

/-- The status/common/upgrade header lines of the Hixie 101 response. -/
def hixieHeadLines (version now : String) : List String :=
  commonHeaderLines version now .WebSocketProtocolHandshake
    ++ ["Upgrade: websocket", "Connection: Upgrade"]

/-- `Connection::handleWebSocketKey3` (lines 412-448), with the external
md5 library as a function parameter: with at least 8 buffered bytes,
build the MD5 source as big-endian Key1, big-endian Key2, then the 8 raw
bytes; emit the 101 response (common headers, upgrade headers, the
accumulated hixie extra headers, a blank line) with the 16-byte digest as
body (flushed); consume 8 input bytes; enter HANDLING_HIXIE_WEBSOCKET;
call `onConnect` on the bound handler. -/
def handleWebSocketKey3 (c : ConnState) (md5 : List Nat → List Nat) : ConnState :=
  if c.inBuf.length < 8 then c
  else
    let digest := md5 (be32 c.webSocketKeys0 ++ be32 c.webSocketKeys1 ++ c.inBuf.take 8)
    let c1 := bufferResponseAndCommonHeaders c .WebSocketProtocolHandshake
    let c2 := bufferLine c1 "Upgrade: websocket"
    let c3 := bufferLine c2 "Connection: Upgrade"
    let c4 := (write c3 (strBytes c.hixieExtraHeaders) false).2
    let c5 := bufferLine c4 ""
    let c6 := (write c5 digest true).2
    let c7 := { c6 with protoState := .HANDLING_HIXIE_WEBSOCKET, inBuf := c6.inBuf.drop 8 }
    if c7.hasHandler then { c7 with events := c7.events ++ [.onConnect] } else c7

/-- The bytes of the whole Hixie 101 handshake response: status line and
common headers, the two upgrade headers, the accumulated extra headers,
a blank line, then the raw digest as body. -/
def hixieKey3ResponseBytes (version now extra : String) (digest : List Nat) : List Nat :=
  linesBytes (hixieHeadLines version now)
    ++ strBytes extra ++ strBytes ("" ++ crlf) ++ digest

/-- **C6**: in `READING_WEBSOCKET_KEY3`, with fewer than 8 buffered bytes
nothing changes; with at least 8, the engine emits the 101 handshake
whose body is `md5(be32 key1 ++ be32 key2 ++ first 8 raw bytes)`,
consumes exactly 8 input bytes, transitions to
`HANDLING_HIXIE_WEBSOCKET`, and calls `onConnect` exactly when a handler
is bound. -/
theorem c6_hixie_key3_upgrade (c : ConnState) (md5f : List Nat → List Nat)
    (h0 : c.hadSendError = false) (h1 : closedC c = false) (h2 : c.closeOnEmpty = false)
    (h3 : c.sends = []) (h4 : c.subOk = true)
    (hcap : c.outBuf.length
        + (hixieKey3ResponseBytes c.serverVersion c.nowStr c.hixieExtraHeaders
            (md5f (be32 c.webSocketKeys0 ++ be32 c.webSocketKeys1 ++ c.inBuf.take 8))).length
        < MaxBufferSize) :
    (c.inBuf.length < 8 → handleWebSocketKey3 c md5f = c)
    ∧ (8 ≤ c.inBuf.length →
       handleWebSocketKey3 c md5f
         = { c with
             outBuf := c.outBuf ++ hixieKey3ResponseBytes c.serverVersion c.nowStr
               c.hixieExtraHeaders
               (md5f (be32 c.webSocketKeys0 ++ be32 c.webSocketKeys1 ++ c.inBuf.take 8)),
             registeredForWriteEvents := true,
             protoState := .HANDLING_HIXIE_WEBSOCKET,
             inBuf := c.inBuf.drop 8,
             events := c.events ++ (if c.hasHandler then [.onConnect] else []) }) := by
  constructor
  · intro hlt
    unfold handleWebSocketKey3
    rw [if_pos hlt]
  · intro h8
    simp only [hixieKey3ResponseBytes, List.length_append] at hcap
    unfold handleWebSocketKey3
    rw [if_neg (by omega)]
    dsimp only
    have eHead : bufferLine (bufferLine (bufferResponseAndCommonHeaders c
          .WebSocketProtocolHandshake) "Upgrade: websocket") "Connection: Upgrade"
        = bufferLines c (hixieHeadLines c.serverVersion c.nowStr) := by
      simp only [hixieHeadLines, bufferResponseAndCommonHeaders, bufferLines,
        List.foldl_append, List.foldl_cons, List.foldl_nil]
    rw [eHead]
    rw [bufferLines_nf _ c h1 h2 (by omega)]
    rw [write_nf { c with outBuf := c.outBuf ++ linesBytes (hixieHeadLines c.serverVersion c.nowStr) } (strBytes c.hixieExtraHeaders) h1 h2 (by simp only [List.length_append]; omega)]
    dsimp only
    rw [bufferLine_nf { c with outBuf := c.outBuf ++ linesBytes (hixieHeadLines c.serverVersion c.nowStr) ++ strBytes c.hixieExtraHeaders } "" h1 h2 (by simp only [List.length_append]; omega)]
    rw [write_fl { c with outBuf := c.outBuf ++ linesBytes (hixieHeadLines c.serverVersion c.nowStr) ++ strBytes c.hixieExtraHeaders ++ strBytes ("" ++ crlf) } (md5f (be32 c.webSocketKeys0 ++ be32 c.webSocketKeys1 ++ c.inBuf.take 8)) h0 h1 h2 h3 h4 (isEmpty_append_right _ _ (by decide)) (by simp only [List.length_append]; omega)]
    dsimp only
    cases hh : c.hasHandler
    · simp only [hh, Bool.false_eq_true, if_false, hixieKey3ResponseBytes,
        List.append_assoc, List.append_nil]
    · simp only [hh, if_true, hixieKey3ResponseBytes, List.append_assoc]

/-- A connection waiting for the Hixie Key3 bytes. -/
def key3ConnEx : ConnState :=
  { initConn "seasocks" "now" [] true true with
      protoState := .READING_WEBSOCKET_KEY3, hasHandler := true,
      webSocketKeys0 := 1, webSocketKeys1 := 2,
      inBuf := [1, 2, 3, 4, 5, 6, 7, 8] }

/-- A stand-in digest function for the witness. -/
def md5Stub : List Nat → List Nat := fun _ => List.replicate 16 0

set_option maxRecDepth 8000 in
/-- Witness for C6 at a concrete connection with exactly 8 buffered
bytes. -/
theorem c6_hixie_key3_upgrade_witness :
    handleWebSocketKey3 key3ConnEx md5Stub
      = { key3ConnEx with
          outBuf := key3ConnEx.outBuf ++ hixieKey3ResponseBytes key3ConnEx.serverVersion key3ConnEx.nowStr key3ConnEx.hixieExtraHeaders (md5Stub (be32 key3ConnEx.webSocketKeys0 ++ be32 key3ConnEx.webSocketKeys1 ++ key3ConnEx.inBuf.take 8)),
          registeredForWriteEvents := true,
          protoState := .HANDLING_HIXIE_WEBSOCKET,
          inBuf := key3ConnEx.inBuf.drop 8,
          events := key3ConnEx.events ++ (if key3ConnEx.hasHandler then [.onConnect] else []) } :=
  (c6_hixie_key3_upgrade key3ConnEx md5Stub rfl rfl rfl rfl rfl (by decide)).2 (by decide)

/-- Modelled from the spec: `findEmbeddedContent` (internal/Embedded.h)
is an external registry; we model it empty, so `sendError` always uses
the inline error template of lines 626-630. -/
def errorDocument (code : ResponseCode) (body : String) : String :=
  "<html><head><title>" ++ toString (responseCodeInt code) ++ " - " ++ responseCodeName code
    ++ "</title></head><body><h1>" ++ toString (responseCodeInt code) ++ " - "
    ++ responseCodeName code ++ "</h1><div>" ++ body
    ++ "</div><hr/><div><i>Powered by seasocks</i></div></body></html>"

/-- `Connection::sendError` (lines 613-641): common headers, the error
document with its length, `Connection: close`, a flush, and a deferred
close-when-empty. -/
def sendError (c : ConnState) (code : ResponseCode) (body : String) : Bool × ConnState :=
  let document := errorDocument code body
  let c1 := bufferResponseAndCommonHeaders c code
  let c2 := bufferLine c1 ("Content-Length: " ++ toString document.length)
  let c3 := bufferLine c2 "Connection: close"
  let c4 := bufferLine c3 ""
  let c5 := bufferLine c4 document
  match flush c5 with
  | (false, c6) => (false, c6)
  | (true, c6) => (true, closeWhenEmpty c6)

/-- `Connection::sendBadRequest`. -/
def sendBadRequest (c : ConnState) (reason : String) : Bool × ConnState :=
  sendError c .BadRequest reason

/-- `Connection::handleHybiHandshake` (lines 850-872), with the external
`getAcceptKey` (internal/HybiAccept.h) as a function parameter: versions
other than 8 and 13 get `400 Bad Request`; 8 and 13 get the 101 response
with the `Sec-WebSocket-Accept` header derived from the client key, an
`onConnect` callback, and the `HANDLING_HYBI_WEBSOCKET` state. -/
def handleHybiHandshake (c : ConnState) (webSocketVersion : Int) (webSocketKey : String)
    (acceptKey : String → String) : Bool × ConnState :=
  if webSocketVersion ≠ 8 ∧ webSocketVersion ≠ 13 then
    sendBadRequest c "Invalid websocket version"
  else
    let c1 := bufferResponseAndCommonHeaders c .WebSocketProtocolHandshake
    let c2 := bufferLine c1 "Upgrade: websocket"
    let c3 := bufferLine c2 "Connection: Upgrade"
    let c4 := bufferLine c3 ("Sec-WebSocket-Accept: " ++ acceptKey webSocketKey)
    let c5 := bufferLine c4 ""
    let c6 := (flush c5).2
    let c7 := if c6.hasHandler then { c6 with events := c6.events ++ [.onConnect] } else c6
    (true, { c7 with protoState := .HANDLING_HYBI_WEBSOCKET })

/-- The WebSocket branch of `Connection::handlePageRequest`
(lines 789-806) once the handler lookup has succeeded: the version is
`atoi` of the `Sec-WebSocket-Version` header; 0 (absent, "0", or
non-numeric) takes the Hixie path and waits for Key3; anything else goes
to the Hybi handshake. -/
def dispatchWebSocket (c : ConnState) (versionHeader : List Char) (webSocketKey : String)
    (acceptKey : String → String) : Bool × ConnState :=
  let webSocketVersion := atoiInt versionHeader
  if webSocketVersion = 0 then
    (true, { c with protoState := .READING_WEBSOCKET_KEY3 })
  else handleHybiHandshake c webSocketVersion webSocketKey acceptKey

/-- The header lines of the Hybi 101 handshake response. -/
def hybi101Lines (version now : String) (accept : String) : List String :=
  commonHeaderLines version now .WebSocketProtocolHandshake
    ++ ["Upgrade: websocket", "Connection: Upgrade",
        "Sec-WebSocket-Accept: " ++ accept, ""]

/-- The header/body lines of an error response as `sendError` buffers
them. -/
def errorLines (version now : String) (code : ResponseCode) (body : String) : List String :=
  commonHeaderLines version now code
    ++ ["Content-Length: " ++ toString (errorDocument code body).length,
        "Connection: close", "", errorDocument code body]

theorem strBytes_line_len (l : String) : (strBytes (l ++ crlf)).length = l.data.length + 2 := by
  have hc : crlf.data = ['\r', '\n'] := rfl
  simp [strBytes, String.data_append, hc]

theorem linesBytes_single (a : String) : linesBytes [a] = strBytes (a ++ crlf) := by
  simp [linesBytes]

theorem linesBytes_snoc_pos (xs : List String) (a : String) :
    0 < (linesBytes (xs ++ [a])).length := by
  rw [linesBytes_append, linesBytes_single]
  have := strBytes_line_len a
  simp only [List.length_append]
  omega

theorem sendError_spec (c : ConnState) (code : ResponseCode) (body : String)
    (h0 : c.hadSendError = false) (h1 : closedC c = false) (h2 : c.closeOnEmpty = false)
    (h3 : c.sends = []) (h4 : c.subOk = true)
    (hcap : c.outBuf.length
        + (linesBytes (errorLines c.serverVersion c.nowStr code body)).length
        < MaxBufferSize) :
    sendError c code body
      = (true, { c with
          outBuf := c.outBuf ++ linesBytes (errorLines c.serverVersion c.nowStr code body),
          registeredForWriteEvents := true, closeOnEmpty := true }) := by
  have hpos : 0 < (linesBytes (errorLines c.serverVersion c.nowStr code body)).length := by
    have he : errorLines c.serverVersion c.nowStr code body
        = (commonHeaderLines c.serverVersion c.nowStr code ++ ["Content-Length: " ++ toString (errorDocument code body).length, "Connection: close", ""]) ++ [errorDocument code body] := by
      unfold errorLines
      rw [show (["Content-Length: " ++ toString (errorDocument code body).length, "Connection: close", "", errorDocument code body] : List String) = ["Content-Length: " ++ toString (errorDocument code body).length, "Connection: close", ""] ++ [errorDocument code body] from rfl]
      rw [← List.append_assoc]
    rw [he]
    exact linesBytes_snoc_pos _ _
  unfold sendError
  dsimp only
  have eAll : bufferLine (bufferLine (bufferLine (bufferLine (bufferResponseAndCommonHeaders c code) ("Content-Length: " ++ toString (errorDocument code body).length)) "Connection: close") "") (errorDocument code body) = bufferLines c (errorLines c.serverVersion c.nowStr code body) := by
    simp only [errorLines, bufferResponseAndCommonHeaders, bufferLines, List.foldl_append,
      List.foldl_cons, List.foldl_nil]
  rw [eAll, bufferLines_nf _ c h1 h2 hcap]
  rw [flush_ok { c with outBuf := c.outBuf ++ linesBytes (errorLines c.serverVersion c.nowStr code body) } h0 h1 h2 h3 h4]
  dsimp only
  have hie : (c.outBuf ++ linesBytes (errorLines c.serverVersion c.nowStr code body)).isEmpty
      = false := isEmpty_append_right _ _ hpos
  unfold closeWhenEmpty
  dsimp only
  rw [hie]
  simp [hie]

theorem handleHybiHandshake_101 (c : ConnState) (v : Int) (key : String)
    (acceptKey : String → String)
    (h0 : c.hadSendError = false) (h1 : closedC c = false) (h2 : c.closeOnEmpty = false)
    (h3 : c.sends = []) (h4 : c.subOk = true)
    (hv : v = 8 ∨ v = 13)
    (hcap : c.outBuf.length
        + (linesBytes (hybi101Lines c.serverVersion c.nowStr (acceptKey key))).length
        < MaxBufferSize) :
    handleHybiHandshake c v key acceptKey
      = (true, { c with
          outBuf := c.outBuf ++ linesBytes (hybi101Lines c.serverVersion c.nowStr (acceptKey key)),
          registeredForWriteEvents := true,
          protoState := .HANDLING_HYBI_WEBSOCKET,
          events := c.events ++ (if c.hasHandler then [.onConnect] else []) }) := by
  have hpos : 0 < (linesBytes (hybi101Lines c.serverVersion c.nowStr (acceptKey key))).length := by
    have he : hybi101Lines c.serverVersion c.nowStr (acceptKey key)
        = (commonHeaderLines c.serverVersion c.nowStr .WebSocketProtocolHandshake ++ ["Upgrade: websocket", "Connection: Upgrade", "Sec-WebSocket-Accept: " ++ acceptKey key]) ++ [""] := by
      unfold hybi101Lines
      rw [show (["Upgrade: websocket", "Connection: Upgrade", "Sec-WebSocket-Accept: " ++ acceptKey key, ""] : List String) = ["Upgrade: websocket", "Connection: Upgrade", "Sec-WebSocket-Accept: " ++ acceptKey key] ++ [""] from rfl]
      rw [← List.append_assoc]
    rw [he]
    exact linesBytes_snoc_pos _ _
  unfold handleHybiHandshake
  rw [if_neg (by rcases hv with hv | hv <;> rw [hv] <;> simp)]
  dsimp only
  have eAll : bufferLine (bufferLine (bufferLine (bufferLine (bufferResponseAndCommonHeaders c .WebSocketProtocolHandshake) "Upgrade: websocket") "Connection: Upgrade") ("Sec-WebSocket-Accept: " ++ acceptKey key)) "" = bufferLines c (hybi101Lines c.serverVersion c.nowStr (acceptKey key)) := by
    simp only [hybi101Lines, bufferResponseAndCommonHeaders, bufferLines, List.foldl_append,
      List.foldl_cons, List.foldl_nil]
  rw [eAll, bufferLines_nf _ c h1 h2 hcap]
  rw [flush_ok { c with outBuf := c.outBuf ++ linesBytes (hybi101Lines c.serverVersion c.nowStr (acceptKey key)) } h0 h1 h2 h3 h4]
  dsimp only
  have hie : (c.outBuf ++ linesBytes (hybi101Lines c.serverVersion c.nowStr (acceptKey key))).isEmpty = false := isEmpty_append_right _ _ hpos
  rw [hie]
  cases hh : c.hasHandler
  · simp only [hh, Bool.false_eq_true, if_false, Bool.not_false, Bool.or_true, List.append_nil]
  · simp only [hh, if_true, Bool.not_false, Bool.or_true]

/-- **C7**: for a WebSocket-verb request that reached the handshake with
a registered handler: `Sec-WebSocket-Version` 8 or 13 yields the 101
response with `Upgrade: websocket`, `Connection: Upgrade` and
`Sec-WebSocket-Accept` derived from the client key, the
`HANDLING_HYBI_WEBSOCKET` state and an `onConnect` callback; any other
nonzero version yields `400 Bad Request`; version absent or 0 takes the
Hixie `READING_WEBSOCKET_KEY3` path and never reaches the version
check. -/
theorem c7_hybi_dispatch (c : ConnState) (versionHeader : List Char) (key : String)
    (acceptKey : String → String)
    (h0 : c.hadSendError = false) (h1 : closedC c = false) (h2 : c.closeOnEmpty = false)
    (h3 : c.sends = []) (h4 : c.subOk = true)
    (hcap101 : c.outBuf.length
        + (linesBytes (hybi101Lines c.serverVersion c.nowStr (acceptKey key))).length
        < MaxBufferSize)
    (hcap400 : c.outBuf.length
        + (linesBytes (errorLines c.serverVersion c.nowStr .BadRequest "Invalid websocket version")).length
        < MaxBufferSize) :
    (atoiInt versionHeader = 0 →
       dispatchWebSocket c versionHeader key acceptKey
         = (true, { c with protoState := .READING_WEBSOCKET_KEY3 }))
    ∧ ((atoiInt versionHeader = 8 ∨ atoiInt versionHeader = 13) →
       dispatchWebSocket c versionHeader key acceptKey
         = (true, { c with
             outBuf := c.outBuf ++ linesBytes (hybi101Lines c.serverVersion c.nowStr (acceptKey key)),
             registeredForWriteEvents := true,
             protoState := .HANDLING_HYBI_WEBSOCKET,
             events := c.events ++ (if c.hasHandler then [.onConnect] else []) }))
    ∧ (atoiInt versionHeader ≠ 0 → atoiInt versionHeader ≠ 8 → atoiInt versionHeader ≠ 13 →
       dispatchWebSocket c versionHeader key acceptKey
         = (true, { c with
             outBuf := c.outBuf ++ linesBytes (errorLines c.serverVersion c.nowStr .BadRequest "Invalid websocket version"),
             registeredForWriteEvents := true, closeOnEmpty := true })) := by
  refine ⟨?_, ?_, ?_⟩
  · intro hz
    unfold dispatchWebSocket
    dsimp only
    rw [if_pos hz]
  · intro hv
    unfold dispatchWebSocket
    dsimp only
    rw [if_neg (by rcases hv with hv | hv <;> rw [hv] <;> decide)]
    exact handleHybiHandshake_101 c _ key acceptKey h0 h1 h2 h3 h4 hv hcap101
  · intro hz h8 h13
    unfold dispatchWebSocket
    dsimp only
    rw [if_neg hz]
    unfold handleHybiHandshake sendBadRequest
    rw [if_pos ⟨h8, h13⟩]
    exact sendError_spec c .BadRequest "Invalid websocket version" h0 h1 h2 h3 h4 hcap400

/-- A fresh connection with a bound WebSocket handler, as the dispatch
requires. -/
def wsConnEx : ConnState :=
  { initConn "seasocks" "now" [] true true with hasHandler := true }

/-- A stand-in for the external accept-key derivation. -/
def acceptStub : String → String := fun _ => "s3pPLMBiTxaQ9kYGzzhZRbK+xOo="

set_option maxRecDepth 8000 in
/-- Witness for C7: version header "13" upgrades, absent header goes to
the Hixie Key3 path, version "7" gets 400. -/
theorem c7_hybi_dispatch_witness :
    (dispatchWebSocket wsConnEx "".data "key" acceptStub
       = (true, { wsConnEx with protoState := .READING_WEBSOCKET_KEY3 }))
    ∧ (dispatchWebSocket wsConnEx "13".data "key" acceptStub
       = (true, { wsConnEx with
           outBuf := wsConnEx.outBuf ++ linesBytes (hybi101Lines wsConnEx.serverVersion wsConnEx.nowStr (acceptStub "key")),
           registeredForWriteEvents := true,
           protoState := .HANDLING_HYBI_WEBSOCKET,
           events := wsConnEx.events ++ (if wsConnEx.hasHandler then [.onConnect] else []) }))
    ∧ (dispatchWebSocket wsConnEx "7".data "key" acceptStub
       = (true, { wsConnEx with
           outBuf := wsConnEx.outBuf ++ linesBytes (errorLines wsConnEx.serverVersion wsConnEx.nowStr .BadRequest "Invalid websocket version"),
           registeredForWriteEvents := true, closeOnEmpty := true })) :=
  ⟨(c7_hybi_dispatch wsConnEx "".data "key" acceptStub rfl rfl rfl rfl rfl
      (by decide) (by decide)).1 (by decide),
   (c7_hybi_dispatch wsConnEx "13".data "key" acceptStub rfl rfl rfl rfl rfl
      (by decide) (by decide)).2.1 (by decide),
   (c7_hybi_dispatch wsConnEx "7".data "key" acceptStub rfl rfl rfl rfl rfl
      (by decide) (by decide)).2.2 (by decide) (by decide) (by decide)⟩

end Seasocks